import Mathlib

/-!
Verification of the chip8-rs CHIP-8 virtual machine (src/stack.rs, src/lib.rs,
src/opcode.rs) against its natural-language specification.

Shallow-embedding conventions:
* Machine integers are modelled as `Nat` with explicit reduction: `% 256` where
  the source computes on `u8`, `% 65536` where it computes on `u16`.  Arithmetic
  that can overflow in Rust (plain `+=`, `<<=`, `u8` multiplication) is given
  release-profile wrapping semantics, written out as an explicit `%`.
* Rust panics (illegal opcode, invalid register operand, out-of-bounds `Vec`
  indexing, stack misuse, invalid jump target) are modelled as `Except.error`
  with a `Fault` value naming the panic site; a normal return is `Except.ok`.
* `Vec<T>` fields are Lean `List`s.  Reads that the source performs after a
  bounds check use `List.getD`; reads/writes the source performs with raw
  indexing (which panic when out of bounds) are guarded by an explicit bounds
  test that produces `Fault.outOfBounds`.
* The external randomness of `rand::random::<u8>()` is threaded through as an
  explicit `randByte` argument.
-/

/-- Fault names the distinct panic sites of the interpreter. -/
inductive Fault : Type where
  | invalidRegister : Fault
  | illegalOpcode : Fault
  | invalidAddress : Fault
  | stackOverflow : Fault
  | stackUnderflow : Fault
  | outOfBounds : Fault
deriving DecidableEq, Repr

/-- Stack mirrors `Stack<T>` from src/stack.rs: a fixed-capacity LIFO with the
capacity in `size`, the current depth in `head`, and the elements in `data`
(most recently pushed element last, as in `Vec::push`). -/
structure Stack (T : Type) where
  size : Nat
  head : Nat
  data : List T
deriving DecidableEq, Repr

/-- Stack.new mirrors `Stack::new(size)`: capacity `size`, empty. -/
def Stack.new (T : Type) (size : Nat) : Stack T :=
  { size := size, head := 0, data := [] }

/-- Stack.push mirrors `Stack::push`: if `head < size`, increment `head` and
append the item, returning `Ok(())`; otherwise leave the stack unchanged and
return an error.  The pair is (state after the `&mut self` call, return value). -/
def Stack.push {T : Type} (s : Stack T) (item : T) : Stack T × Except Unit Unit :=
  if s.head < s.size then
    ({ s with head := s.head + 1, data := s.data ++ [item] }, Except.ok ())
  else
    (s, Except.error ())

/-- Stack.pop mirrors `Stack::pop`: if `head > 0` pop the last element of
`data` and decrement `head`; otherwise return an error with the stack
unchanged. -/
def Stack.pop {T : Type} (s : Stack T) : Stack T × Except Unit T :=
  if s.head > 0 then
    match s.data.getLast? with
    | some x => ({ s with head := s.head - 1, data := s.data.dropLast }, Except.ok x)
    | none => (s, Except.error ())
  else
    (s, Except.error ())

/-- pushAll folds `Stack::push` over a list of items, ignoring the per-push
return values (as a caller issuing a sequence of pushes would). -/
def pushAll {T : Type} (s : Stack T) (items : List T) : Stack T :=
  items.foldl (fun st it => (st.push it).1) s

/-- popN performs `n` consecutive `Stack::pop` calls, collecting the popped
items in order; it returns `none` if any pop fails. -/
def popN {T : Type} (s : Stack T) : Nat → Option (List T)
  | 0 => some []
  | n + 1 =>
    match s.pop with
    | (s', Except.ok x) => (popN s' n).map (fun xs => x :: xs)
    | (_, Except.error _) => none

/-- Chip mirrors the `Chip` struct of src/lib.rs: the whole machine state.
`keys` follows the `keys: Vec<bool>` declaration (a `Key` holds one
pressed/not-pressed state, so a key entry is a `Bool`). -/
structure Chip where
  memory : List Nat
  stack : Stack Nat
  registers : List Nat
  address : Nat
  program_counter : Nat
  keys : List Bool
  screen_buffer : List Nat
  screen_width : Nat
  screen_height : Nat
  sound_timer : Nat
  delay_timer : Nat
deriving Repr

/-- writeBytes copies `bytes` into `mem` starting at index `start`, one
`Vec`-style element assignment per byte (`List.set` leaves the list unchanged
when the index is out of range, matching a slice copy that was bounds-checked
by the caller). -/
def writeBytes (mem : List Nat) (start : Nat) (bytes : List Nat) : List Nat :=
  match bytes with
  | [] => mem
  | b :: rest => writeBytes (mem.set start b) (start + 1) rest

/-- fontData is the 80-byte built-in font table written by `Chip::init_fonts`. -/
def fontData : List Nat :=
  [0xF0, 0x90, 0x90, 0x90, 0xF0,
   0x20, 0x60, 0x20, 0x20, 0x70,
   0xF0, 0x10, 0xF0, 0x80, 0xF0,
   0xF0, 0x10, 0xF0, 0x10, 0xF0,
   0x90, 0x90, 0xF0, 0x10, 0x10,
   0xF0, 0x80, 0xF0, 0x10, 0x10,
   0xF0, 0x80, 0xF0, 0x90, 0xF0,
   0xF0, 0x10, 0x20, 0x40, 0x40,
   0xF0, 0x90, 0xF0, 0x90, 0xF0,
   0xF0, 0x90, 0xF0, 0x10, 0xF0,
   0xF0, 0x90, 0xF0, 0x90, 0x90,
   0xE0, 0x90, 0xE0, 0x90, 0xE0,
   0xF0, 0x80, 0x80, 0x80, 0xF0,
   0xE0, 0x90, 0x90, 0x90, 0xE0,
   0xF0, 0x80, 0xF0, 0x80, 0xF0,
   0xF0, 0x80, 0xF0, 0x80, 0x80]

/-- Chip.init_fonts mirrors `Chip::init_fonts`: copy the font table into
`memory[0..80]`. -/
def Chip.init_fonts (c : Chip) : Chip :=
  { c with memory := writeBytes c.memory 0 fontData }

/-- Chip.new mirrors `Chip::new(screen_width, screen_height)`: 0xFFF zeroed
memory bytes, a capacity-16 stack, 16 zeroed registers, program counter 0x200,
16 unpressed keys, a zeroed screen buffer of `width * height / 8` bytes, zero
timers, and the font table seeded into low memory. -/
def Chip.new (screen_width screen_height : Nat) : Chip :=
  Chip.init_fonts
    { memory := List.replicate 0xFFF 0
      stack := Stack.new Nat 16
      registers := List.replicate 16 0
      address := 0
      program_counter := 0x200
      keys := List.replicate 16 false
      screen_buffer := List.replicate (screen_width * screen_height / 8) 0
      screen_width := screen_width
      screen_height := screen_height
      sound_timer := 0
      delay_timer := 0 }

/-- Chip.reset mirrors `Chip::reset`: replace the whole state with
`Chip::new(self.screen_width, self.screen_height)`. -/
def Chip.reset (c : Chip) : Chip :=
  Chip.new c.screen_width c.screen_height

/-- Chip.load_rom mirrors the memory effect of `Chip::load_rom`: a single
`File::read` into `memory[0x200..]` deposits up to
`min (rom length) (memory length - 0x200)` bytes, and only afterwards is the
byte count compared against `MAX_ROM_SIZE = 0x400`.  The pair is (state after
the call, returned `Result`); the `rom` list stands for the opened file's
contents. -/
def Chip.load_rom (c : Chip) (rom : List Nat) : Chip × Except Unit Unit :=
  let bytes_read := min rom.length (c.memory.length - 0x200)
  let c' := { c with memory := writeBytes c.memory 0x200 (rom.take bytes_read) }
  if bytes_read > 0x400 then (c', Except.error ()) else (c', Except.ok ())

/-- Chip.increment_program_counter mirrors `Chip::increment_program_counter`:
advance the 16-bit program counter by `2 * step` (default step 1). -/
def Chip.increment_program_counter (c : Chip) (step : Option Nat) : Chip :=
  match step with
  | some i => { c with program_counter := (c.program_counter + 2 * i) % 65536 }
  | none => { c with program_counter := (c.program_counter + 2) % 65536 }

/-- Chip.get_pressed_key mirrors `Chip::get_pressed_key`: the index of the
first pressed key, if any. -/
def Chip.get_pressed_key (c : Chip) : Option Nat :=
  c.keys.findIdx? (fun k => k)

/-- Chip.update_keys. Modelled from the spec: `Chip::update_keys` itself is not
in the lib.rs snapshot (only its caller in src/bin/chip8.rs); per the spec it
overwrites the key-state array with the states supplied by the input adapter. -/
def Chip.update_keys (c : Chip) (key_states : List Bool) : Chip :=
  { c with keys := key_states }

/-- Opcode mirrors the `Opcode` struct of src/opcode.rs: one raw 16-bit
instruction word. -/
structure Opcode where
  opcode : Nat
deriving DecidableEq, Repr

/-- Opcode.n1 extracts bits [15:12]. -/
def Opcode.n1 (o : Opcode) : Nat :=
  (o.opcode &&& 0xF000) >>> 12

/-- Opcode.n2 extracts bits [11:8]. -/
def Opcode.n2 (o : Opcode) : Nat :=
  (o.opcode &&& 0x0F00) >>> 8

/-- Opcode.n3 extracts bits [7:4]. -/
def Opcode.n3 (o : Opcode) : Nat :=
  (o.opcode &&& 0x00F0) >>> 4

/-- Opcode.n4 extracts bits [3:0]. -/
def Opcode.n4 (o : Opcode) : Nat :=
  o.opcode &&& 0x000F

/-- Opcode.constant extracts the low byte. -/
def Opcode.constant (o : Opcode) : Nat :=
  o.opcode &&& 0xFF

/-- Opcode.valid_registers mirrors `Opcode::valid_registers`: an empty operand
list is rejected, and every listed index must be below
`chip.registers.len()`. -/
def Opcode.valid_registers (registers : List Nat) (chip : Chip) : Bool :=
  !registers.isEmpty && registers.all (fun index => index < chip.registers.length)

/-- Opcode.clear_screen mirrors `Opcode::clear_screen`: `Vec::clear` empties
the screen buffer (length becomes 0), then the program counter advances. -/
def Opcode.clear_screen (chip : Chip) : Chip :=
  Chip.increment_program_counter { chip with screen_buffer := [] } none

/-- Opcode.return_from_subroutine mirrors `Opcode::return_from_subroutine`:
pop the stack into the program counter and advance; panic when the pop fails. -/
def Opcode.return_from_subroutine (chip : Chip) : Except Fault Chip :=
  match chip.stack.pop with
  | (s', Except.ok addr) =>
    Except.ok (Chip.increment_program_counter
      { chip with stack := s', program_counter := addr } none)
  | (_, Except.error _) => Except.error Fault.stackUnderflow

/-- Opcode.jump_unconditional mirrors `Opcode::jump_unconditional`: panic when
the address has bits above the low 12, otherwise set the program counter. -/
def Opcode.jump_unconditional (chip : Chip) (address : Nat) : Except Fault Chip :=
  if address &&& 0xF000 ≠ 0 then Except.error Fault.invalidAddress
  else Except.ok { chip with program_counter := address }

/-- Opcode.call_subroutine mirrors `Opcode::call_subroutine`: validate the
address, push the current program counter, then jump; panic on stack
exhaustion. -/
def Opcode.call_subroutine (chip : Chip) (address : Nat) : Except Fault Chip :=
  if address &&& 0xF000 ≠ 0 then Except.error Fault.invalidAddress
  else
    match chip.stack.push chip.program_counter with
    | (s', Except.ok _) => Except.ok { chip with stack := s', program_counter := address }
    | (_, Except.error _) => Except.error Fault.stackOverflow

/-- Opcode.skip_if_equal mirrors `Opcode::skip_if_equal`: panic on an invalid
register, advance by 4 when `Vx == value`, else by 2. -/
def Opcode.skip_if_equal (chip : Chip) (vx : Nat) (value : Nat) : Except Fault Chip :=
  if chip.registers.length ≤ vx then Except.error Fault.invalidRegister
  else if chip.registers.getD vx 0 = value then
    Except.ok (chip.increment_program_counter (some 2))
  else
    Except.ok (chip.increment_program_counter none)

/-- Opcode.skip_if_not_equal mirrors `Opcode::skip_if_not_equal`. -/
def Opcode.skip_if_not_equal (chip : Chip) (register : Nat) (value : Nat) : Except Fault Chip :=
  if chip.registers.length ≤ register then Except.error Fault.invalidRegister
  else if chip.registers.getD register 0 ≠ value then
    Except.ok (chip.increment_program_counter (some 2))
  else
    Except.ok (chip.increment_program_counter none)

/-- Opcode.skip_equal_registers mirrors `Opcode::skip_equal_registers`. -/
def Opcode.skip_equal_registers (chip : Chip) (vx vy : Nat) : Except Fault Chip :=
  if chip.registers.length ≤ vx ∨ chip.registers.length ≤ vy then
    Except.error Fault.invalidRegister
  else if chip.registers.getD vx 0 = chip.registers.getD vy 0 then
    Except.ok (chip.increment_program_counter (some 2))
  else
    Except.ok (chip.increment_program_counter none)

/-- Opcode.load_constant mirrors `Opcode::load_constant`: `Vx := value`. -/
def Opcode.load_constant (chip : Chip) (vx : Nat) (value : Nat) : Except Fault Chip :=
  if chip.registers.length ≤ vx then Except.error Fault.invalidRegister
  else Except.ok ((Chip.increment_program_counter
    { chip with registers := chip.registers.set vx value } none))

/-- Opcode.add_constant mirrors `Opcode::add_constant` as written in the
source: `registers[vx] += registers[vx].wrapping_add(value)`, i.e. the wrapped
sum of Vx and the constant is added back onto Vx (the outer `+=` wraps in a
release build). -/
def Opcode.add_constant (chip : Chip) (vx : Nat) (value : Nat) : Except Fault Chip :=
  if Opcode.valid_registers [vx] chip then
    let v := chip.registers.getD vx 0
    Except.ok (Chip.increment_program_counter
      { chip with registers := chip.registers.set vx ((v + (v + value) % 256) % 256) } none)
  else Except.error Fault.invalidRegister

/-- Opcode.set_vx_from_vy mirrors `Opcode::set_vx_from_vy`: `Vx := Vy`. -/
def Opcode.set_vx_from_vy (chip : Chip) (vx vy : Nat) : Except Fault Chip :=
  if Opcode.valid_registers [vx, vy] chip then
    Except.ok (Chip.increment_program_counter
      { chip with registers := chip.registers.set vx (chip.registers.getD vy 0) } none)
  else Except.error Fault.invalidRegister

/-- Opcode.vx_or_vy mirrors `Opcode::vx_or_vy`: `Vx |= Vy`. -/
def Opcode.vx_or_vy (chip : Chip) (vx vy : Nat) : Except Fault Chip :=
  if Opcode.valid_registers [vx, vy] chip then
    Except.ok (Chip.increment_program_counter
      { chip with registers :=
          chip.registers.set vx (chip.registers.getD vx 0 ||| chip.registers.getD vy 0) } none)
  else Except.error Fault.invalidRegister

/-- Opcode.vx_and_vy mirrors `Opcode::vx_and_vy`: `Vx &= Vy`. -/
def Opcode.vx_and_vy (chip : Chip) (vx vy : Nat) : Except Fault Chip :=
  if Opcode.valid_registers [vx, vy] chip then
    Except.ok (Chip.increment_program_counter
      { chip with registers :=
          chip.registers.set vx (chip.registers.getD vx 0 &&& chip.registers.getD vy 0) } none)
  else Except.error Fault.invalidRegister

/-- Opcode.vx_xor_vy mirrors `Opcode::vx_xor_vy`: `Vx ^= Vy`. -/
def Opcode.vx_xor_vy (chip : Chip) (vx vy : Nat) : Except Fault Chip :=
  if Opcode.valid_registers [vx, vy] chip then
    Except.ok (Chip.increment_program_counter
      { chip with registers :=
          chip.registers.set vx (chip.registers.getD vx 0 ^^^ chip.registers.getD vy 0) } none)
  else Except.error Fault.invalidRegister

/-- Opcode.add_vx_vy mirrors `Opcode::add_vx_vy`: 8-bit overflowing add with
the carry in VF. -/
def Opcode.add_vx_vy (chip : Chip) (vx vy : Nat) : Except Fault Chip :=
  if Opcode.valid_registers [vx, vy] chip then
    let sum := chip.registers.getD vx 0 + chip.registers.getD vy 0
    let regs := (chip.registers.set vx (sum % 256)).set 15 (if 256 ≤ sum then 1 else 0)
    Except.ok (Chip.increment_program_counter { chip with registers := regs } none)
  else Except.error Fault.invalidRegister

/-- Opcode.subtract_vx_vy mirrors `Opcode::subtract_vx_vy`: 8-bit overflowing
subtraction `Vx - Vy`, VF := NOT borrow. -/
def Opcode.subtract_vx_vy (chip : Chip) (vx vy : Nat) : Except Fault Chip :=
  if Opcode.valid_registers [vx, vy] chip then
    let a := chip.registers.getD vx 0
    let b := chip.registers.getD vy 0
    let x := if a < b then a + 256 - b else a - b
    let regs := (chip.registers.set vx x).set 15 (if a < b then 0 else 1)
    Except.ok (Chip.increment_program_counter { chip with registers := regs } none)
  else Except.error Fault.invalidRegister

/-- Opcode.shift_right_vx mirrors `Opcode::shift_right_vx`: VF := lsb of Vx,
then `Vx >>= 1`; the program counter is not advanced. -/
def Opcode.shift_right_vx (chip : Chip) (vx : Nat) : Except Fault Chip :=
  if Opcode.valid_registers [vx] chip then
    let regs := chip.registers.set 15 (chip.registers.getD vx 0 &&& 0x1)
    Except.ok { chip with registers := regs.set vx (regs.getD vx 0 >>> 1) }
  else Except.error Fault.invalidRegister

/-- Opcode.subtract_vy_vx mirrors `Opcode::subtract_vy_vx`: 8-bit overflowing
subtraction `Vy - Vx` stored into Vx, VF := NOT borrow. -/
def Opcode.subtract_vy_vx (chip : Chip) (vx vy : Nat) : Except Fault Chip :=
  if Opcode.valid_registers [vx, vy] chip then
    let a := chip.registers.getD vy 0
    let b := chip.registers.getD vx 0
    let x := if a < b then a + 256 - b else a - b
    let regs := (chip.registers.set vx x).set 15 (if a < b then 0 else 1)
    Except.ok (Chip.increment_program_counter { chip with registers := regs } none)
  else Except.error Fault.invalidRegister

/-- Opcode.shift_left_vx mirrors `Opcode::shift_left_vx`: VF := msb of Vx, then
`Vx <<= 1` (8-bit wrap); the program counter is not advanced. -/
def Opcode.shift_left_vx (chip : Chip) (vx : Nat) : Except Fault Chip :=
  if Opcode.valid_registers [vx] chip then
    let regs := chip.registers.set 15 (((chip.registers.getD vx 0 &&& 0x80) >>> 7) &&& 0x1)
    Except.ok { chip with registers := regs.set vx ((regs.getD vx 0 <<< 1) % 256) }
  else Except.error Fault.invalidRegister

/-- Opcode.skip_vx_not_equal_vy mirrors `Opcode::skip_vx_not_equal_vy`. -/
def Opcode.skip_vx_not_equal_vy (chip : Chip) (vx vy : Nat) : Except Fault Chip :=
  if Opcode.valid_registers [vx, vy] chip then
    if chip.registers.getD vx 0 ≠ chip.registers.getD vy 0 then
      Except.ok (chip.increment_program_counter (some 2))
    else
      Except.ok (chip.increment_program_counter none)
  else Except.error Fault.invalidRegister

/-- Opcode.set_address_register mirrors `Opcode::set_address_register`:
`I := addr & 0x0FFF`, advance. -/
def Opcode.set_address_register (chip : Chip) (addr : Nat) : Chip :=
  Chip.increment_program_counter { chip with address := addr &&& 0x0FFF } none

/-- Opcode.jump_addr_v0 mirrors `Opcode::jump_addr_v0` as written in the
source: `program_counter += (addr & 0x0FFF) + V0` — the sum is added to the
current program counter (raw indexing of `registers[0]` panics when the
register file is empty). -/
def Opcode.jump_addr_v0 (chip : Chip) (addr : Nat) : Except Fault Chip :=
  if 0 < chip.registers.length then
    Except.ok { chip with program_counter :=
      (chip.program_counter + (addr &&& 0x0FFF) + chip.registers.getD 0 0) % 65536 }
  else Except.error Fault.outOfBounds

/-- Opcode.set_vx_rand mirrors `Opcode::set_vx_rand`:
`Vx := random_byte & constant`, with the random byte supplied externally. -/
def Opcode.set_vx_rand (chip : Chip) (vx : Nat) (constant : Nat) (randByte : Nat) :
    Except Fault Chip :=
  if Opcode.valid_registers [vx] chip then
    Except.ok (Chip.increment_program_counter
      { chip with registers := chip.registers.set vx ((randByte % 256) &&& constant) } none)
  else Except.error Fault.invalidRegister

/-- Opcode.pixel_collision mirrors `Opcode::pixel_collision`: true when some
bit position 0..7 is set in both bytes (a 1-pixel about to be XORed to 0). -/
def Opcode.pixel_collision (b1 b2 : Nat) : Bool :=
  (List.range 8).any fun shift =>
    !(b1 &&& (1 <<< shift) == 0) && !(b2 &&& (1 <<< shift) == 0)

/-- Opcode.drawRows is the `for row in 0..height` loop body of
`Opcode::draw_sprite`: XOR each sprite byte from `memory[I + row]` onto the
screen byte at `(Vy + row) * screen_width + Vx` (the `Vy + row` sum is 8-bit),
stopping with VF := 1 at the first collision; raw indexing panics out of
bounds. -/
def Opcode.drawRows (chip : Chip) (vx vy : Nat) (row : Nat) : Nat → Except Fault Chip
  | 0 => Except.ok chip
  | remaining + 1 =>
    let chunk_index :=
      ((chip.registers.getD vy 0 + row) % 256) * chip.screen_width + chip.registers.getD vx 0
    if chunk_index < chip.screen_buffer.length then
      if chip.address + row < chip.memory.length then
        let chunk := chip.screen_buffer.getD chunk_index 0
        let new := chip.memory.getD (chip.address + row) 0
        let chip' := { chip with
          screen_buffer := chip.screen_buffer.set chunk_index (chunk ^^^ new) }
        if Opcode.pixel_collision chunk new then
          Except.ok { chip' with registers := chip'.registers.set 15 1 }
        else
          Opcode.drawRows chip' vx vy (row + 1) remaining
      else Except.error Fault.outOfBounds
    else Except.error Fault.outOfBounds

/-- Opcode.draw_sprite mirrors `Opcode::draw_sprite`: validate the registers,
clear VF, run the row loop, then advance the program counter. -/
def Opcode.draw_sprite (chip : Chip) (vx vy : Nat) (height : Nat) : Except Fault Chip :=
  if Opcode.valid_registers [vx, vy] chip then
    match Opcode.drawRows { chip with registers := chip.registers.set 15 0 } vx vy 0 height with
    | Except.ok c => Except.ok (Chip.increment_program_counter c none)
    | Except.error e => Except.error e
  else Except.error Fault.invalidRegister

/-- Opcode.skip_on_keypress mirrors `Opcode::skip_on_keypress`: skip when the
key whose index is the value of Vx is pressed (raw indexing of `keys` panics
when that value is out of range). -/
def Opcode.skip_on_keypress (chip : Chip) (vx : Nat) : Except Fault Chip :=
  if Opcode.valid_registers [vx] chip then
    if chip.registers.getD vx 0 < chip.keys.length then
      if chip.keys.getD (chip.registers.getD vx 0) false then
        Except.ok (chip.increment_program_counter (some 2))
      else
        Except.ok (chip.increment_program_counter none)
    else Except.error Fault.outOfBounds
  else Except.error Fault.invalidRegister

/-- Opcode.skip_not_keypress mirrors `Opcode::skip_not_keypress`. -/
def Opcode.skip_not_keypress (chip : Chip) (vx : Nat) : Except Fault Chip :=
  if Opcode.valid_registers [vx] chip then
    if chip.registers.getD vx 0 < chip.keys.length then
      if chip.keys.getD (chip.registers.getD vx 0) false then
        Except.ok (chip.increment_program_counter none)
      else
        Except.ok (chip.increment_program_counter (some 2))
    else Except.error Fault.outOfBounds
  else Except.error Fault.invalidRegister

/-- Opcode.get_delay_timer mirrors `Opcode::get_delay_timer`:
`Vx := delay_timer` with raw (unvalidated) register indexing. -/
def Opcode.get_delay_timer (chip : Chip) (vx : Nat) : Except Fault Chip :=
  if vx < chip.registers.length then
    Except.ok (Chip.increment_program_counter
      { chip with registers := chip.registers.set vx chip.delay_timer } none)
  else Except.error Fault.outOfBounds

/-- Opcode.wait_for_key mirrors `Opcode::wait_for_key`: when some key is
pressed store its index in Vx and advance; otherwise leave the state unchanged
(the program counter stays, so the instruction re-executes next tick). -/
def Opcode.wait_for_key (chip : Chip) (vx : Nat) : Except Fault Chip :=
  if Opcode.valid_registers [vx] chip then
    match chip.get_pressed_key with
    | some key =>
      Except.ok (Chip.increment_program_counter
        { chip with registers := chip.registers.set vx key } none)
    | none => Except.ok chip
  else Except.error Fault.invalidRegister

/-- Opcode.set_delay_timer mirrors `Opcode::set_delay_timer`. -/
def Opcode.set_delay_timer (chip : Chip) (vx : Nat) : Except Fault Chip :=
  if Opcode.valid_registers [vx] chip then
    Except.ok (Chip.increment_program_counter
      { chip with delay_timer := chip.registers.getD vx 0 } none)
  else Except.error Fault.invalidRegister

/-- Opcode.set_sound_timer mirrors `Opcode::set_sound_timer`. -/
def Opcode.set_sound_timer (chip : Chip) (vx : Nat) : Except Fault Chip :=
  if Opcode.valid_registers [vx] chip then
    Except.ok (Chip.increment_program_counter
      { chip with sound_timer := chip.registers.getD vx 0 } none)
  else Except.error Fault.invalidRegister

/-- Opcode.add_vx_to_address_register mirrors
`Opcode::add_vx_to_address_register`: 16-bit overflowing add of Vx onto I
(`u16::overflowing_add`), VF := 1 exactly when the 16-bit add wrapped. -/
def Opcode.add_vx_to_address_register (chip : Chip) (vx : Nat) : Except Fault Chip :=
  if Opcode.valid_registers [vx] chip then
    let sum := chip.address + chip.registers.getD vx 0
    let c' := { chip with address := sum % 65536 }
    let c'' :=
      if 65536 ≤ sum then { c' with registers := c'.registers.set 15 1 }
      else { c' with registers := c'.registers.set 15 0 }
    Except.ok (Chip.increment_program_counter c'' none)
  else Except.error Fault.invalidRegister

/-- Opcode.get_font_sprite mirrors `Opcode::get_font_sprite`:
`I := Vx * 5` where the multiplication is performed on `u8` (wraps at 256). -/
def Opcode.get_font_sprite (chip : Chip) (vx : Nat) : Except Fault Chip :=
  if Opcode.valid_registers [vx] chip then
    Except.ok (Chip.increment_program_counter
      { chip with address := (chip.registers.getD vx 0 * 5) % 256 } none)
  else Except.error Fault.invalidRegister

/-- bcdDigits is the bit-reconstruction loop of
`Opcode::get_binary_coded_decimal`: rebuild `result` from the bits of
`binary_value`, one exponent per iteration (8-bit adds). -/
def bcdDigits (binary_value result exponent : Nat) : Nat → Nat
  | 0 => result
  | remaining + 1 =>
    let result' := if binary_value &&& 0x1 = 1 then (result + 2 ^ exponent) % 256 else result
    bcdDigits (binary_value >>> 1) result' (exponent + 1) remaining

/-- Opcode.get_binary_coded_decimal mirrors `Opcode::get_binary_coded_decimal`:
rebuild Vx bitwise, then walk `I + 2`, `I + 1`, `I` writing ones, tens and
hundreds digits (16-bit address arithmetic, raw memory indexing). -/
def Opcode.get_binary_coded_decimal (chip : Chip) (vx : Nat) : Except Fault Chip :=
  if Opcode.valid_registers [vx] chip then
    let result := bcdDigits (chip.registers.getD vx 0) 0 0 8
    let a2 := (chip.address + 2) % 65536
    if a2 < chip.memory.length then
      let m2 := chip.memory.set a2 (result % 10)
      let r1 := result / 10
      let a1 := (a2 + 65535) % 65536
      if a1 < m2.length then
        let m1 := m2.set a1 (r1 % 10)
        let r2 := r1 / 10
        let a0 := (a1 + 65535) % 65536
        if a0 < m1.length then
          Except.ok (Chip.increment_program_counter
            { chip with memory := m1.set a0 (r2 % 10), address := a0 } none)
        else Except.error Fault.outOfBounds
      else Except.error Fault.outOfBounds
    else Except.error Fault.outOfBounds
  else Except.error Fault.invalidRegister

/-- Opcode.dumpLoop is the `for i in 0..=vx` loop of `Opcode::register_dump`:
write `registers[i]` to `memory[I + i]` (raw memory indexing). -/
def Opcode.dumpLoop (chip : Chip) (i : Nat) : Nat → Except Fault Chip
  | 0 => Except.ok chip
  | remaining + 1 =>
    if chip.address + i < chip.memory.length then
      Opcode.dumpLoop
        { chip with memory := chip.memory.set (chip.address + i) (chip.registers.getD i 0) }
        (i + 1) remaining
    else Except.error Fault.outOfBounds

/-- Opcode.register_dump mirrors `Opcode::register_dump`: store V0..Vx at
`memory[I..]`, leaving I unchanged. -/
def Opcode.register_dump (chip : Chip) (vx : Nat) : Except Fault Chip :=
  if Opcode.valid_registers [vx] chip then
    match Opcode.dumpLoop chip 0 (vx + 1) with
    | Except.ok c => Except.ok (Chip.increment_program_counter c none)
    | Except.error e => Except.error e
  else Except.error Fault.invalidRegister

/-- Opcode.loadLoop is the `for i in 0..=vx` loop of `Opcode::register_load`:
read `memory[I + i]` into `registers[i]` (raw memory indexing). -/
def Opcode.loadLoop (chip : Chip) (i : Nat) : Nat → Except Fault Chip
  | 0 => Except.ok chip
  | remaining + 1 =>
    if chip.address + i < chip.memory.length then
      Opcode.loadLoop
        { chip with registers := chip.registers.set i (chip.memory.getD (chip.address + i) 0) }
        (i + 1) remaining
    else Except.error Fault.outOfBounds

/-- Opcode.register_load mirrors `Opcode::register_load`: load V0..Vx from
`memory[I..]`. -/
def Opcode.register_load (chip : Chip) (vx : Nat) : Except Fault Chip :=
  if Opcode.valid_registers [vx] chip then
    match Opcode.loadLoop chip 0 (vx + 1) with
    | Except.ok c => Except.ok (Chip.increment_program_counter c none)
    | Except.error e => Except.error e
  else Except.error Fault.invalidRegister

/-- Opcode.decode_execute mirrors `Opcode::decode_execute`: dispatch on the
primary nibble, then for families 0x0, 0x8, 0xE, 0xF on the secondary nibble,
exactly as the nested `match` in the source — including the 0xD arm, which
passes `(n1 & 0xFF)` as the sprite height, and the 8XYE arm, which passes n3
as the register to shift. -/
def Opcode.decode_execute (o : Opcode) (randByte : Nat) (chip : Chip) : Except Fault Chip :=
  if o.n1 = 0x0 then
    if o.n4 = 0x0 then Except.ok (Opcode.clear_screen chip)
    else if o.n4 = 0xE then Opcode.return_from_subroutine chip
    else Except.error Fault.illegalOpcode
  else if o.n1 = 0x1 then Opcode.jump_unconditional chip (o.opcode &&& 0x0FFF)
  else if o.n1 = 0x2 then Opcode.call_subroutine chip (o.opcode &&& 0x0FFF)
  else if o.n1 = 0x3 then Opcode.skip_if_equal chip o.n2 o.constant
  else if o.n1 = 0x4 then Opcode.skip_if_not_equal chip o.n2 o.constant
  else if o.n1 = 0x5 then Opcode.skip_equal_registers chip o.n2 o.n3
  else if o.n1 = 0x6 then Opcode.load_constant chip o.n2 o.constant
  else if o.n1 = 0x7 then Opcode.add_constant chip o.n2 o.constant
  else if o.n1 = 0x8 then
    if o.n4 = 0x0 then Opcode.set_vx_from_vy chip o.n2 o.n3
    else if o.n4 = 0x1 then Opcode.vx_or_vy chip o.n2 o.n3
    else if o.n4 = 0x2 then Opcode.vx_and_vy chip o.n2 o.n3
    else if o.n4 = 0x3 then Opcode.vx_xor_vy chip o.n2 o.n3
    else if o.n4 = 0x4 then Opcode.add_vx_vy chip o.n2 o.n3
    else if o.n4 = 0x5 then Opcode.subtract_vx_vy chip o.n2 o.n3
    else if o.n4 = 0x6 then Opcode.shift_right_vx chip o.n2
    else if o.n4 = 0x7 then Opcode.subtract_vy_vx chip o.n2 o.n3
    else if o.n4 = 0xE then Opcode.shift_left_vx chip o.n3
    else Except.error Fault.illegalOpcode
  else if o.n1 = 0x9 then Opcode.skip_vx_not_equal_vy chip o.n2 o.n3
  else if o.n1 = 0xA then Except.ok (Opcode.set_address_register chip o.opcode)
  else if o.n1 = 0xB then Opcode.jump_addr_v0 chip o.opcode
  else if o.n1 = 0xC then Opcode.set_vx_rand chip o.n2 o.constant randByte
  else if o.n1 = 0xD then Opcode.draw_sprite chip o.n2 o.n3 (o.n1 &&& 0xFF)
  else if o.n1 = 0xE then
    if o.n3 = 0x9 then Opcode.skip_on_keypress chip o.n2
    else if o.n3 = 0xA then Opcode.skip_not_keypress chip o.n2
    else Except.error Fault.illegalOpcode
  else if o.n1 = 0xF then
    if o.n3 = 0x0 then
      if o.n4 = 0x7 then Opcode.get_delay_timer chip o.n2
      else if o.n4 = 0xA then Opcode.wait_for_key chip o.n2
      else Except.error Fault.illegalOpcode
    else if o.n3 = 0x1 then
      if o.n4 = 0x5 then Opcode.set_delay_timer chip o.n2
      else if o.n4 = 0x8 then Opcode.set_sound_timer chip o.n2
      else if o.n4 = 0xE then Opcode.add_vx_to_address_register chip o.n2
      else Except.error Fault.illegalOpcode
    else if o.n3 = 0x2 then Opcode.get_font_sprite chip o.n2
    else if o.n3 = 0x3 then Opcode.get_binary_coded_decimal chip o.n2
    else if o.n3 = 0x5 then Opcode.register_dump chip o.n2
    else if o.n3 = 0x6 then Opcode.register_load chip o.n2
    else Except.error Fault.illegalOpcode
  else Except.error Fault.illegalOpcode

/-- Chip.get_next_opcode mirrors `Chip::get_next_opcode`: fetch the big-endian
opcode at the program counter (raw memory indexing). -/
def Chip.get_next_opcode (c : Chip) : Option Opcode :=
  if c.program_counter + 1 < c.memory.length then
    some { opcode := (c.memory.getD c.program_counter 0 <<< 8) |||
                     c.memory.getD (c.program_counter + 1) 0 }
  else none

/-- Chip.tick mirrors `Chip::tick`: saturating-decrement both timers, fetch the
opcode at the program counter, then decode and execute it. -/
def Chip.tick (c : Chip) (randByte : Nat) : Except Fault Chip :=
  let c' := { c with delay_timer := c.delay_timer - 1, sound_timer := c.sound_timer - 1 }
  match c'.get_next_opcode with
  | some o => o.decode_execute randByte c'
  | none => Except.error Fault.outOfBounds

/-- Mutation enumerates the state-mutating operations a driver can apply to a
`Chip` between construction and reset: a tick (with its random byte), a key
update, or a ROM load. -/
inductive Mutation : Type where
  | tick (randByte : Nat) : Mutation
  | update_keys (key_states : List Bool) : Mutation
  | load_rom (rom : List Nat) : Mutation

/-- applyMutation applies one mutation; `load_rom` keeps the mutated state even
when it reports an oversized-ROM error, as the source does. -/
def applyMutation (m : Mutation) (c : Chip) : Except Fault Chip :=
  match m with
  | Mutation.tick r => c.tick r
  | Mutation.update_keys ks => Except.ok (c.update_keys ks)
  | Mutation.load_rom rom => Except.ok (c.load_rom rom).1

/-- applyMutations applies a whole sequence of mutations, stopping at the first
panic. -/
def applyMutations (ms : List Mutation) (c : Chip) : Except Fault Chip :=
  ms.foldl (fun acc m => acc.bind (applyMutation m)) (Except.ok c)

/-- runOps feeds a list of raw (opcode, random byte) pairs through
`Opcode::decode_execute`, stopping at the first panic. -/
def runOps (ops : List (Nat × Nat)) (c : Chip) : Except Fault Chip :=
  ops.foldl (fun acc p => acc.bind (Opcode.decode_execute { opcode := p.1 } p.2)) (Except.ok c)

/-- okOr extracts the chip from a non-panicking run, falling back to a default. -/
def okOr (r : Except Fault Chip) (d : Chip) : Chip :=
  match r with
  | Except.ok c => c
  | Except.error _ => d

/-- Chip.dims is the pair of screen dimensions a `Chip` was constructed with. -/
def Chip.dims (c : Chip) : Nat × Nat :=
  (c.screen_width, c.screen_height)

/-- Chip.mkDefault mirrors `Chip::default()`: a fresh 64 x 32 machine. -/
def Chip.mkDefault : Chip :=
  Chip.new 64 32

/-- chipSmall is a freshly constructed machine with an 8 x 2 screen (a 2-byte
screen buffer), used to exercise the sprite-drawing bounds behaviour. -/
def chipSmall : Chip :=
  Chip.new 8 2

theorem pushAll_ok {T : Type} (items : List T) :
    ∀ (s : Stack T), s.head = s.data.length → s.head + items.length ≤ s.size →
      pushAll s items =
        { size := s.size, head := s.head + items.length, data := s.data ++ items } := by
  induction items with
  | nil =>
    intro s _ _
    simp [pushAll]
  | cons b rest ih =>
    intro s hinv hle
    have hlt : s.head < s.size := by
      simp at hle
      omega
    have hstep : (s.push b).1 =
        { size := s.size, head := s.head + 1, data := s.data ++ [b] } := by
      simp [Stack.push, hlt]
    have hinv' : (s.push b).1.head = (s.push b).1.data.length := by
      rw [hstep]
      simp [hinv]
    have hle' : (s.push b).1.head + rest.length ≤ (s.push b).1.size := by
      rw [hstep]
      simp at hle ⊢
      omega
    have := ih (s.push b).1 hinv' hle'
    calc pushAll s (b :: rest) = pushAll (s.push b).1 rest := by
          simp [pushAll, List.foldl]
      _ = _ := by
          rw [this, hstep]
          simp
          omega

theorem popN_reverse {T : Type} :
    ∀ (n : Nat) (s : Stack T), s.head = s.data.length → n = s.data.length →
      popN s n = some s.data.reverse := by
  intro n
  induction n with
  | zero =>
    intro s hinv hn
    have : s.data = [] := by
      cases hd : s.data with
      | nil => rfl
      | cons a as => rw [hd] at hn; simp at hn
    simp [popN, this]
  | succ m ih =>
    intro s hinv hn
    have hne : s.data ≠ [] := by
      intro hd
      rw [hd] at hn
      simp at hn
    have hpos : s.head > 0 := by
      rw [hinv]
      cases hd : s.data with
      | nil => exact absurd hd hne
      | cons a as => simp
    obtain ⟨x, hx⟩ : ∃ x, s.data.getLast? = some x :=
      ⟨s.data.getLast hne, List.getLast?_eq_getLast s.data hne⟩
    have hpop : s.pop =
        ({ s with head := s.head - 1, data := s.data.dropLast }, Except.ok x) := by
      simp [Stack.pop, hpos, hx]
    have hlen : s.data.dropLast.length = m := by
      have := s.data.length_dropLast
      omega
    have hinv' : s.head - 1 = s.data.dropLast.length := by
      rw [hlen, hinv]
      omega
    have hrec := ih { s with head := s.head - 1, data := s.data.dropLast } hinv' hlen.symm
    have hx' : s.data.getLast hne = x := by
      have := List.getLast?_eq_getLast s.data hne
      rw [this] at hx
      exact Option.some.inj hx
    have hsplit : s.data.dropLast ++ [x] = s.data := by
      rw [← hx']
      exact List.dropLast_append_getLast hne
    calc popN s (m + 1) = (popN { s with head := s.head - 1, data := s.data.dropLast } m).map
          (fun xs => x :: xs) := by
          rw [popN, hpop]
      _ = some (x :: s.data.dropLast.reverse) := by rw [hrec]; rfl
      _ = some s.data.reverse := by
          rw [← hsplit]
          simp

theorem Opcode.n1_lt_16 (o : Opcode) : o.n1 < 16 := by
  have h : o.opcode &&& 0xF000 ≤ 0xF000 := Nat.and_le_right
  have h2 : (o.opcode &&& 0xF000) >>> 12 ≤ 0xF000 >>> 12 := by
    simpa [Nat.shiftRight_eq_div_pow] using Nat.div_le_div_right (c := 2 ^ 12) h
  unfold Opcode.n1
  omega

theorem Opcode.n2_lt_16 (o : Opcode) : o.n2 < 16 := by
  have h : o.opcode &&& 0x0F00 ≤ 0x0F00 := Nat.and_le_right
  have h2 : (o.opcode &&& 0x0F00) >>> 8 ≤ 0x0F00 >>> 8 := by
    simpa [Nat.shiftRight_eq_div_pow] using Nat.div_le_div_right (c := 2 ^ 8) h
  unfold Opcode.n2
  omega

theorem Opcode.n3_lt_16 (o : Opcode) : o.n3 < 16 := by
  have h : o.opcode &&& 0x00F0 ≤ 0x00F0 := Nat.and_le_right
  have h2 : (o.opcode &&& 0x00F0) >>> 4 ≤ 0x00F0 >>> 4 := by
    simpa [Nat.shiftRight_eq_div_pow] using Nat.div_le_div_right (c := 2 ^ 4) h
  unfold Opcode.n3
  omega

theorem Opcode.n4_lt_16 (o : Opcode) : o.n4 < 16 := by
  have h : o.opcode &&& 0x000F ≤ 0x000F := Nat.and_le_right
  unfold Opcode.n4
  omega

theorem valid_registers_one (c : Chip) (a : Nat) (ha : a < c.registers.length) :
    Opcode.valid_registers [a] c = true := by
  simp [Opcode.valid_registers, ha]

theorem valid_registers_two (c : Chip) (a b : Nat) (ha : a < c.registers.length)
    (hb : b < c.registers.length) : Opcode.valid_registers [a, b] c = true := by
  simp [Opcode.valid_registers, ha, hb]

theorem getD_set_self (l : List Nat) (i v : Nat) (h : i < l.length) :
    (l.set i v).getD i 0 = v := by
  induction l generalizing i with
  | nil => simp at h
  | cons a as ih =>
    cases i with
    | zero => simp
    | succ j =>
      simp only [List.set]
      have hj : j < as.length := by simpa using h
      simpa using ih j hj

theorem getD_set_ne (l : List Nat) (i j v : Nat) (h : i ≠ j) :
    (l.set i v).getD j 0 = l.getD j 0 := by
  induction l generalizing i j with
  | nil => simp
  | cons a as ih =>
    cases i with
    | zero =>
      cases j with
      | zero => exact absurd rfl h
      | succ k => simp
    | succ i' =>
      cases j with
      | zero => simp
      | succ k =>
        have : i' ≠ k := by omega
        simpa using ih i' k this

theorem writeBytes_length (bytes : List Nat) :
    ∀ (mem : List Nat) (start : Nat), (writeBytes mem start bytes).length = mem.length := by
  induction bytes with
  | nil => intro mem start; rfl
  | cons b rest ih =>
    intro mem start
    rw [writeBytes, ih]
    simp

theorem writeBytes_getD_lt_start (bytes : List Nat) :
    ∀ (mem : List Nat) (start j : Nat), j < start →
      (writeBytes mem start bytes).getD j 0 = mem.getD j 0 := by
  induction bytes with
  | nil => intro mem start j _; rfl
  | cons b rest ih =>
    intro mem start j hj
    rw [writeBytes, ih (mem.set start b) (start + 1) j (by omega)]
    exact getD_set_ne mem start j b (by omega)

theorem writeBytes_getD (bytes : List Nat) :
    ∀ (mem : List Nat) (start i : Nat), i < bytes.length → start + bytes.length ≤ mem.length →
      (writeBytes mem start bytes).getD (start + i) 0 = bytes.getD i 0 := by
  induction bytes with
  | nil => intro mem start i hi _; simp at hi
  | cons b rest ih =>
    intro mem start i hi hlen
    cases i with
    | zero =>
      rw [writeBytes]
      have h1 : (writeBytes (mem.set start b) (start + 1) rest).getD (start + 0) 0 =
          (mem.set start b).getD (start + 0) 0 :=
        writeBytes_getD_lt_start rest (mem.set start b) (start + 1) (start + 0) (by omega)
      rw [h1]
      have hs : start < mem.length := by simp at hlen; omega
      simpa using getD_set_self mem start b hs
    | succ i' =>
      rw [writeBytes]
      have hi' : i' < rest.length := by simpa using hi
      have hlen' : (start + 1) + rest.length ≤ (mem.set start b).length := by
        simp at hlen ⊢
        omega
      have := ih (mem.set start b) (start + 1) i' hi' hlen'
      have harith : start + (i' + 1) = (start + 1) + i' := by omega
      rw [harith, this]
      simp

theorem increment_dims (c : Chip) (s : Option Nat) :
    (c.increment_program_counter s).dims = c.dims := by
  cases s <;> rfl

theorem clear_screen_dims (c : Chip) : (Opcode.clear_screen c).dims = c.dims := by
  simp [Opcode.clear_screen, Chip.increment_program_counter, Chip.dims]

theorem set_address_register_dims (c : Chip) (a : Nat) :
    (Opcode.set_address_register c a).dims = c.dims := by
  simp [Opcode.set_address_register, Chip.increment_program_counter, Chip.dims]

theorem return_from_subroutine_dims {c c' : Chip}
    (h : Opcode.return_from_subroutine c = Except.ok c') : c'.dims = c.dims := by
  unfold Opcode.return_from_subroutine at h
  rcases hp : c.stack.pop with ⟨s', r⟩
  rw [hp] at h
  cases r with
  | ok x =>
    simp at h
    subst h
    simp [Chip.increment_program_counter, Chip.dims]
  | error e => simp at h

theorem jump_unconditional_dims {c c' : Chip} {a : Nat}
    (h : Opcode.jump_unconditional c a = Except.ok c') : c'.dims = c.dims := by
  unfold Opcode.jump_unconditional at h
  split_ifs at h
  simp at h
  subst h
  simp [Chip.dims]

theorem call_subroutine_dims {c c' : Chip} {a : Nat}
    (h : Opcode.call_subroutine c a = Except.ok c') : c'.dims = c.dims := by
  unfold Opcode.call_subroutine at h
  split_ifs at h
  rcases hp : c.stack.push c.program_counter with ⟨s', r⟩
  rw [hp] at h
  cases r with
  | ok x =>
    simp at h
    subst h
    simp [Chip.dims]
  | error e => simp at h

theorem skip_if_equal_dims {c c' : Chip} {vx v : Nat}
    (h : Opcode.skip_if_equal c vx v = Except.ok c') : c'.dims = c.dims := by
  unfold Opcode.skip_if_equal at h
  split_ifs at h <;> simp at h <;> subst h <;>
    simp [Chip.increment_program_counter, Chip.dims]

theorem skip_if_not_equal_dims {c c' : Chip} {vx v : Nat}
    (h : Opcode.skip_if_not_equal c vx v = Except.ok c') : c'.dims = c.dims := by
  unfold Opcode.skip_if_not_equal at h
  split_ifs at h <;> simp at h <;> subst h <;>
    simp [Chip.increment_program_counter, Chip.dims]

theorem skip_equal_registers_dims {c c' : Chip} {vx vy : Nat}
    (h : Opcode.skip_equal_registers c vx vy = Except.ok c') : c'.dims = c.dims := by
  unfold Opcode.skip_equal_registers at h
  split_ifs at h <;> simp at h <;> subst h <;>
    simp [Chip.increment_program_counter, Chip.dims]

theorem load_constant_dims {c c' : Chip} {vx v : Nat}
    (h : Opcode.load_constant c vx v = Except.ok c') : c'.dims = c.dims := by
  unfold Opcode.load_constant at h
  split_ifs at h
  simp at h
  subst h
  simp [Chip.increment_program_counter, Chip.dims]

theorem add_constant_dims {c c' : Chip} {vx v : Nat}
    (h : Opcode.add_constant c vx v = Except.ok c') : c'.dims = c.dims := by
  unfold Opcode.add_constant at h
  split_ifs at h
  simp at h
  subst h
  simp [Chip.increment_program_counter, Chip.dims]

theorem set_vx_from_vy_dims {c c' : Chip} {vx vy : Nat}
    (h : Opcode.set_vx_from_vy c vx vy = Except.ok c') : c'.dims = c.dims := by
  unfold Opcode.set_vx_from_vy at h
  split_ifs at h
  simp at h
  subst h
  simp [Chip.increment_program_counter, Chip.dims]

theorem vx_or_vy_dims {c c' : Chip} {vx vy : Nat}
    (h : Opcode.vx_or_vy c vx vy = Except.ok c') : c'.dims = c.dims := by
  unfold Opcode.vx_or_vy at h
  split_ifs at h
  simp at h
  subst h
  simp [Chip.increment_program_counter, Chip.dims]

theorem vx_and_vy_dims {c c' : Chip} {vx vy : Nat}
    (h : Opcode.vx_and_vy c vx vy = Except.ok c') : c'.dims = c.dims := by
  unfold Opcode.vx_and_vy at h
  split_ifs at h
  simp at h
  subst h
  simp [Chip.increment_program_counter, Chip.dims]

theorem vx_xor_vy_dims {c c' : Chip} {vx vy : Nat}
    (h : Opcode.vx_xor_vy c vx vy = Except.ok c') : c'.dims = c.dims := by
  unfold Opcode.vx_xor_vy at h
  split_ifs at h
  simp at h
  subst h
  simp [Chip.increment_program_counter, Chip.dims]

theorem add_vx_vy_dims {c c' : Chip} {vx vy : Nat}
    (h : Opcode.add_vx_vy c vx vy = Except.ok c') : c'.dims = c.dims := by
  unfold Opcode.add_vx_vy at h
  split_ifs at h
  simp at h
  subst h
  simp [Chip.increment_program_counter, Chip.dims]

theorem subtract_vx_vy_dims {c c' : Chip} {vx vy : Nat}
    (h : Opcode.subtract_vx_vy c vx vy = Except.ok c') : c'.dims = c.dims := by
  unfold Opcode.subtract_vx_vy at h
  split_ifs at h
  simp at h
  subst h
  simp [Chip.increment_program_counter, Chip.dims]

theorem shift_right_vx_dims {c c' : Chip} {vx : Nat}
    (h : Opcode.shift_right_vx c vx = Except.ok c') : c'.dims = c.dims := by
  unfold Opcode.shift_right_vx at h
  split_ifs at h
  simp at h
  subst h
  simp [Chip.dims]

theorem subtract_vy_vx_dims {c c' : Chip} {vx vy : Nat}
    (h : Opcode.subtract_vy_vx c vx vy = Except.ok c') : c'.dims = c.dims := by
  unfold Opcode.subtract_vy_vx at h
  split_ifs at h
  simp at h
  subst h
  simp [Chip.increment_program_counter, Chip.dims]

theorem shift_left_vx_dims {c c' : Chip} {vx : Nat}
    (h : Opcode.shift_left_vx c vx = Except.ok c') : c'.dims = c.dims := by
  unfold Opcode.shift_left_vx at h
  split_ifs at h
  simp at h
  subst h
  simp [Chip.dims]

theorem skip_vx_not_equal_vy_dims {c c' : Chip} {vx vy : Nat}
    (h : Opcode.skip_vx_not_equal_vy c vx vy = Except.ok c') : c'.dims = c.dims := by
  unfold Opcode.skip_vx_not_equal_vy at h
  split_ifs at h <;> simp at h <;> subst h <;>
    simp [Chip.increment_program_counter, Chip.dims]

theorem jump_addr_v0_dims {c c' : Chip} {a : Nat}
    (h : Opcode.jump_addr_v0 c a = Except.ok c') : c'.dims = c.dims := by
  unfold Opcode.jump_addr_v0 at h
  split_ifs at h
  simp at h
  subst h
  simp [Chip.dims]

theorem set_vx_rand_dims {c c' : Chip} {vx k r : Nat}
    (h : Opcode.set_vx_rand c vx k r = Except.ok c') : c'.dims = c.dims := by
  unfold Opcode.set_vx_rand at h
  split_ifs at h
  simp at h
  subst h
  simp [Chip.increment_program_counter, Chip.dims]

theorem drawRows_dims :
    ∀ (n : Nat) (c : Chip) (vx vy row : Nat) (c' : Chip),
      Opcode.drawRows c vx vy row n = Except.ok c' → c'.dims = c.dims := by
  intro n
  induction n with
  | zero =>
    intro c vx vy row c' h
    rw [Opcode.drawRows] at h
    simp at h
    subst h
    rfl
  | succ m ih =>
    intro c vx vy row c' h
    rw [Opcode.drawRows] at h
    simp only [] at h
    split_ifs at h with h1 h2 h3
    · simp at h
      subst h
      simp [Chip.dims]
    · have := ih _ vx vy (row + 1) c' h
      simpa [Chip.dims] using this

theorem draw_sprite_dims {c c' : Chip} {vx vy ht : Nat}
    (h : Opcode.draw_sprite c vx vy ht = Except.ok c') : c'.dims = c.dims := by
  unfold Opcode.draw_sprite at h
  split_ifs at h
  rcases hd : Opcode.drawRows { c with registers := c.registers.set 15 0 } vx vy 0 ht with e | c2
  · rw [hd] at h
    simp at h
  · rw [hd] at h
    simp at h
    subst h
    rw [increment_dims]
    have := drawRows_dims ht _ vx vy 0 c2 hd
    simpa [Chip.dims] using this

theorem skip_on_keypress_dims {c c' : Chip} {vx : Nat}
    (h : Opcode.skip_on_keypress c vx = Except.ok c') : c'.dims = c.dims := by
  unfold Opcode.skip_on_keypress at h
  split_ifs at h <;> simp at h <;> subst h <;>
    simp [Chip.increment_program_counter, Chip.dims]

theorem skip_not_keypress_dims {c c' : Chip} {vx : Nat}
    (h : Opcode.skip_not_keypress c vx = Except.ok c') : c'.dims = c.dims := by
  unfold Opcode.skip_not_keypress at h
  split_ifs at h <;> simp at h <;> subst h <;>
    simp [Chip.increment_program_counter, Chip.dims]

theorem get_delay_timer_dims {c c' : Chip} {vx : Nat}
    (h : Opcode.get_delay_timer c vx = Except.ok c') : c'.dims = c.dims := by
  unfold Opcode.get_delay_timer at h
  split_ifs at h
  simp at h
  subst h
  simp [Chip.increment_program_counter, Chip.dims]

theorem wait_for_key_dims {c c' : Chip} {vx : Nat}
    (h : Opcode.wait_for_key c vx = Except.ok c') : c'.dims = c.dims := by
  unfold Opcode.wait_for_key at h
  split_ifs at h
  rcases hk : c.get_pressed_key with _ | key
  · rw [hk] at h
    simp at h
    subst h
    rfl
  · rw [hk] at h
    simp at h
    subst h
    simp [Chip.increment_program_counter, Chip.dims]

theorem set_delay_timer_dims {c c' : Chip} {vx : Nat}
    (h : Opcode.set_delay_timer c vx = Except.ok c') : c'.dims = c.dims := by
  unfold Opcode.set_delay_timer at h
  split_ifs at h
  simp at h
  subst h
  simp [Chip.increment_program_counter, Chip.dims]

theorem set_sound_timer_dims {c c' : Chip} {vx : Nat}
    (h : Opcode.set_sound_timer c vx = Except.ok c') : c'.dims = c.dims := by
  unfold Opcode.set_sound_timer at h
  split_ifs at h
  simp at h
  subst h
  simp [Chip.increment_program_counter, Chip.dims]

theorem add_vx_to_address_register_dims {c c' : Chip} {vx : Nat}
    (h : Opcode.add_vx_to_address_register c vx = Except.ok c') : c'.dims = c.dims := by
  unfold Opcode.add_vx_to_address_register at h
  simp only [] at h
  split_ifs at h <;> simp at h <;> subst h <;>
    simp [Chip.increment_program_counter, Chip.dims]

theorem get_font_sprite_dims {c c' : Chip} {vx : Nat}
    (h : Opcode.get_font_sprite c vx = Except.ok c') : c'.dims = c.dims := by
  unfold Opcode.get_font_sprite at h
  split_ifs at h
  simp at h
  subst h
  simp [Chip.increment_program_counter, Chip.dims]

theorem get_binary_coded_decimal_dims {c c' : Chip} {vx : Nat}
    (h : Opcode.get_binary_coded_decimal c vx = Except.ok c') : c'.dims = c.dims := by
  unfold Opcode.get_binary_coded_decimal at h
  simp only [] at h
  split_ifs at h
  simp at h
  subst h
  simp [Chip.increment_program_counter, Chip.dims]

theorem dumpLoop_dims :
    ∀ (n : Nat) (c : Chip) (i : Nat) (c' : Chip),
      Opcode.dumpLoop c i n = Except.ok c' → c'.dims = c.dims := by
  intro n
  induction n with
  | zero =>
    intro c i c' h
    rw [Opcode.dumpLoop] at h
    simp at h
    subst h
    rfl
  | succ m ih =>
    intro c i c' h
    rw [Opcode.dumpLoop] at h
    split_ifs at h
    have := ih _ (i + 1) c' h
    simpa [Chip.dims] using this

theorem register_dump_dims {c c' : Chip} {vx : Nat}
    (h : Opcode.register_dump c vx = Except.ok c') : c'.dims = c.dims := by
  unfold Opcode.register_dump at h
  split_ifs at h
  rcases hd : Opcode.dumpLoop c 0 (vx + 1) with e | c2
  · rw [hd] at h
    simp at h
  · rw [hd] at h
    simp at h
    subst h
    rw [increment_dims]
    exact dumpLoop_dims (vx + 1) c 0 c2 hd

theorem loadLoop_dims :
    ∀ (n : Nat) (c : Chip) (i : Nat) (c' : Chip),
      Opcode.loadLoop c i n = Except.ok c' → c'.dims = c.dims := by
  intro n
  induction n with
  | zero =>
    intro c i c' h
    rw [Opcode.loadLoop] at h
    simp at h
    subst h
    rfl
  | succ m ih =>
    intro c i c' h
    rw [Opcode.loadLoop] at h
    split_ifs at h
    have := ih _ (i + 1) c' h
    simpa [Chip.dims] using this

theorem register_load_dims {c c' : Chip} {vx : Nat}
    (h : Opcode.register_load c vx = Except.ok c') : c'.dims = c.dims := by
  unfold Opcode.register_load at h
  split_ifs at h
  rcases hd : Opcode.loadLoop c 0 (vx + 1) with e | c2
  · rw [hd] at h
    simp at h
  · rw [hd] at h
    simp at h
    subst h
    rw [increment_dims]
    exact loadLoop_dims (vx + 1) c 0 c2 hd

theorem decode_00E0 {o : Opcode} (r : Nat) (c : Chip) (h1 : o.n1 = 0) (h4 : o.n4 = 0) :
    o.decode_execute r c = Except.ok (Opcode.clear_screen c) := by
  unfold Opcode.decode_execute
  simp [h1, h4]

theorem decode_00EE {o : Opcode} (r : Nat) (c : Chip) (h1 : o.n1 = 0) (h4 : o.n4 = 14) :
    o.decode_execute r c = Opcode.return_from_subroutine c := by
  unfold Opcode.decode_execute
  simp [h1, h4]

theorem decode_0_illegal {o : Opcode} (r : Nat) (c : Chip) (h1 : o.n1 = 0)
    (h4a : o.n4 ≠ 0) (h4b : o.n4 ≠ 14) :
    o.decode_execute r c = Except.error Fault.illegalOpcode := by
  unfold Opcode.decode_execute
  simp [h1, h4a, h4b]

theorem decode_1NNN {o : Opcode} (r : Nat) (c : Chip) (h1 : o.n1 = 1) :
    o.decode_execute r c = Opcode.jump_unconditional c (o.opcode &&& 0x0FFF) := by
  unfold Opcode.decode_execute
  simp [h1]

theorem decode_2NNN {o : Opcode} (r : Nat) (c : Chip) (h1 : o.n1 = 2) :
    o.decode_execute r c = Opcode.call_subroutine c (o.opcode &&& 0x0FFF) := by
  unfold Opcode.decode_execute
  simp [h1]

theorem decode_3XNN {o : Opcode} (r : Nat) (c : Chip) (h1 : o.n1 = 3) :
    o.decode_execute r c = Opcode.skip_if_equal c o.n2 o.constant := by
  unfold Opcode.decode_execute
  simp [h1]

theorem decode_4XNN {o : Opcode} (r : Nat) (c : Chip) (h1 : o.n1 = 4) :
    o.decode_execute r c = Opcode.skip_if_not_equal c o.n2 o.constant := by
  unfold Opcode.decode_execute
  simp [h1]

theorem decode_5XY0 {o : Opcode} (r : Nat) (c : Chip) (h1 : o.n1 = 5) :
    o.decode_execute r c = Opcode.skip_equal_registers c o.n2 o.n3 := by
  unfold Opcode.decode_execute
  simp [h1]

theorem decode_6XNN {o : Opcode} (r : Nat) (c : Chip) (h1 : o.n1 = 6) :
    o.decode_execute r c = Opcode.load_constant c o.n2 o.constant := by
  unfold Opcode.decode_execute
  simp [h1]

theorem decode_7XNN {o : Opcode} (r : Nat) (c : Chip) (h1 : o.n1 = 7) :
    o.decode_execute r c = Opcode.add_constant c o.n2 o.constant := by
  unfold Opcode.decode_execute
  simp [h1]

theorem decode_8XY0 {o : Opcode} (r : Nat) (c : Chip) (h1 : o.n1 = 8) (h4 : o.n4 = 0) :
    o.decode_execute r c = Opcode.set_vx_from_vy c o.n2 o.n3 := by
  unfold Opcode.decode_execute
  simp [h1, h4]

theorem decode_8XY1 {o : Opcode} (r : Nat) (c : Chip) (h1 : o.n1 = 8) (h4 : o.n4 = 1) :
    o.decode_execute r c = Opcode.vx_or_vy c o.n2 o.n3 := by
  unfold Opcode.decode_execute
  simp [h1, h4]

theorem decode_8XY2 {o : Opcode} (r : Nat) (c : Chip) (h1 : o.n1 = 8) (h4 : o.n4 = 2) :
    o.decode_execute r c = Opcode.vx_and_vy c o.n2 o.n3 := by
  unfold Opcode.decode_execute
  simp [h1, h4]

theorem decode_8XY3 {o : Opcode} (r : Nat) (c : Chip) (h1 : o.n1 = 8) (h4 : o.n4 = 3) :
    o.decode_execute r c = Opcode.vx_xor_vy c o.n2 o.n3 := by
  unfold Opcode.decode_execute
  simp [h1, h4]

theorem decode_8XY4 {o : Opcode} (r : Nat) (c : Chip) (h1 : o.n1 = 8) (h4 : o.n4 = 4) :
    o.decode_execute r c = Opcode.add_vx_vy c o.n2 o.n3 := by
  unfold Opcode.decode_execute
  simp [h1, h4]

theorem decode_8XY5 {o : Opcode} (r : Nat) (c : Chip) (h1 : o.n1 = 8) (h4 : o.n4 = 5) :
    o.decode_execute r c = Opcode.subtract_vx_vy c o.n2 o.n3 := by
  unfold Opcode.decode_execute
  simp [h1, h4]

theorem decode_8XY6 {o : Opcode} (r : Nat) (c : Chip) (h1 : o.n1 = 8) (h4 : o.n4 = 6) :
    o.decode_execute r c = Opcode.shift_right_vx c o.n2 := by
  unfold Opcode.decode_execute
  simp [h1, h4]

theorem decode_8XY7 {o : Opcode} (r : Nat) (c : Chip) (h1 : o.n1 = 8) (h4 : o.n4 = 7) :
    o.decode_execute r c = Opcode.subtract_vy_vx c o.n2 o.n3 := by
  unfold Opcode.decode_execute
  simp [h1, h4]

theorem decode_8XYE {o : Opcode} (r : Nat) (c : Chip) (h1 : o.n1 = 8) (h4 : o.n4 = 14) :
    o.decode_execute r c = Opcode.shift_left_vx c o.n3 := by
  unfold Opcode.decode_execute
  simp [h1, h4]

theorem decode_8_illegal {o : Opcode} (r : Nat) (c : Chip) (h1 : o.n1 = 8)
    (ha : o.n4 ≠ 0) (hb : o.n4 ≠ 1) (hc : o.n4 ≠ 2) (hd : o.n4 ≠ 3) (he : o.n4 ≠ 4)
    (hf : o.n4 ≠ 5) (hg : o.n4 ≠ 6) (hh : o.n4 ≠ 7) (hi : o.n4 ≠ 14) :
    o.decode_execute r c = Except.error Fault.illegalOpcode := by
  unfold Opcode.decode_execute
  simp [h1, ha, hb, hc, hd, he, hf, hg, hh, hi]

theorem decode_9XY0 {o : Opcode} (r : Nat) (c : Chip) (h1 : o.n1 = 9) :
    o.decode_execute r c = Opcode.skip_vx_not_equal_vy c o.n2 o.n3 := by
  unfold Opcode.decode_execute
  simp [h1]

theorem decode_ANNN {o : Opcode} (r : Nat) (c : Chip) (h1 : o.n1 = 10) :
    o.decode_execute r c = Except.ok (Opcode.set_address_register c o.opcode) := by
  unfold Opcode.decode_execute
  simp [h1]

theorem decode_BNNN {o : Opcode} (r : Nat) (c : Chip) (h1 : o.n1 = 11) :
    o.decode_execute r c = Opcode.jump_addr_v0 c o.opcode := by
  unfold Opcode.decode_execute
  simp [h1]

theorem decode_CXNN {o : Opcode} (r : Nat) (c : Chip) (h1 : o.n1 = 12) :
    o.decode_execute r c = Opcode.set_vx_rand c o.n2 o.constant r := by
  unfold Opcode.decode_execute
  simp [h1]

theorem decode_DXYN {o : Opcode} (r : Nat) (c : Chip) (h1 : o.n1 = 13) :
    o.decode_execute r c = Opcode.draw_sprite c o.n2 o.n3 13 := by
  unfold Opcode.decode_execute
  simp [h1]
  have h13 : (13 &&& 255 : Nat) = 13 := rfl
  rw [h13]

theorem decode_EX9E {o : Opcode} (r : Nat) (c : Chip) (h1 : o.n1 = 14) (h3 : o.n3 = 9) :
    o.decode_execute r c = Opcode.skip_on_keypress c o.n2 := by
  unfold Opcode.decode_execute
  simp [h1, h3]

theorem decode_EXA1 {o : Opcode} (r : Nat) (c : Chip) (h1 : o.n1 = 14) (h3 : o.n3 = 10) :
    o.decode_execute r c = Opcode.skip_not_keypress c o.n2 := by
  unfold Opcode.decode_execute
  simp [h1, h3]

theorem decode_E_illegal {o : Opcode} (r : Nat) (c : Chip) (h1 : o.n1 = 14)
    (ha : o.n3 ≠ 9) (hb : o.n3 ≠ 10) :
    o.decode_execute r c = Except.error Fault.illegalOpcode := by
  unfold Opcode.decode_execute
  simp [h1, ha, hb]

theorem decode_FX07 {o : Opcode} (r : Nat) (c : Chip) (h1 : o.n1 = 15) (h3 : o.n3 = 0)
    (h4 : o.n4 = 7) : o.decode_execute r c = Opcode.get_delay_timer c o.n2 := by
  unfold Opcode.decode_execute
  simp [h1, h3, h4]

theorem decode_FX0A {o : Opcode} (r : Nat) (c : Chip) (h1 : o.n1 = 15) (h3 : o.n3 = 0)
    (h4 : o.n4 = 10) : o.decode_execute r c = Opcode.wait_for_key c o.n2 := by
  unfold Opcode.decode_execute
  simp [h1, h3, h4]

theorem decode_F0_illegal {o : Opcode} (r : Nat) (c : Chip) (h1 : o.n1 = 15) (h3 : o.n3 = 0)
    (ha : o.n4 ≠ 7) (hb : o.n4 ≠ 10) :
    o.decode_execute r c = Except.error Fault.illegalOpcode := by
  unfold Opcode.decode_execute
  simp [h1, h3, ha, hb]

theorem decode_FX15 {o : Opcode} (r : Nat) (c : Chip) (h1 : o.n1 = 15) (h3 : o.n3 = 1)
    (h4 : o.n4 = 5) : o.decode_execute r c = Opcode.set_delay_timer c o.n2 := by
  unfold Opcode.decode_execute
  simp [h1, h3, h4]

theorem decode_FX18 {o : Opcode} (r : Nat) (c : Chip) (h1 : o.n1 = 15) (h3 : o.n3 = 1)
    (h4 : o.n4 = 8) : o.decode_execute r c = Opcode.set_sound_timer c o.n2 := by
  unfold Opcode.decode_execute
  simp [h1, h3, h4]

theorem decode_FX1E {o : Opcode} (r : Nat) (c : Chip) (h1 : o.n1 = 15) (h3 : o.n3 = 1)
    (h4 : o.n4 = 14) : o.decode_execute r c = Opcode.add_vx_to_address_register c o.n2 := by
  unfold Opcode.decode_execute
  simp [h1, h3, h4]

theorem decode_F1_illegal {o : Opcode} (r : Nat) (c : Chip) (h1 : o.n1 = 15) (h3 : o.n3 = 1)
    (ha : o.n4 ≠ 5) (hb : o.n4 ≠ 8) (hc : o.n4 ≠ 14) :
    o.decode_execute r c = Except.error Fault.illegalOpcode := by
  unfold Opcode.decode_execute
  simp [h1, h3, ha, hb, hc]

theorem decode_FX29 {o : Opcode} (r : Nat) (c : Chip) (h1 : o.n1 = 15) (h3 : o.n3 = 2) :
    o.decode_execute r c = Opcode.get_font_sprite c o.n2 := by
  unfold Opcode.decode_execute
  simp [h1, h3]

theorem decode_FX33 {o : Opcode} (r : Nat) (c : Chip) (h1 : o.n1 = 15) (h3 : o.n3 = 3) :
    o.decode_execute r c = Opcode.get_binary_coded_decimal c o.n2 := by
  unfold Opcode.decode_execute
  simp [h1, h3]

theorem decode_FX55 {o : Opcode} (r : Nat) (c : Chip) (h1 : o.n1 = 15) (h3 : o.n3 = 5) :
    o.decode_execute r c = Opcode.register_dump c o.n2 := by
  unfold Opcode.decode_execute
  simp [h1, h3]

theorem decode_FX65 {o : Opcode} (r : Nat) (c : Chip) (h1 : o.n1 = 15) (h3 : o.n3 = 6) :
    o.decode_execute r c = Opcode.register_load c o.n2 := by
  unfold Opcode.decode_execute
  simp [h1, h3]

theorem decode_F_illegal {o : Opcode} (r : Nat) (c : Chip) (h1 : o.n1 = 15)
    (ha : o.n3 ≠ 0) (hb : o.n3 ≠ 1) (hc : o.n3 ≠ 2) (hd : o.n3 ≠ 3) (he : o.n3 ≠ 5)
    (hf : o.n3 ≠ 6) : o.decode_execute r c = Except.error Fault.illegalOpcode := by
  unfold Opcode.decode_execute
  simp [h1, ha, hb, hc, hd, he, hf]

theorem decode_execute_dims {o : Opcode} {r : Nat} {c c' : Chip}
    (h : o.decode_execute r c = Except.ok c') : c'.dims = c.dims := by
  have h16 := Opcode.n1_lt_16 o
  have hcase : o.n1 = 0 ∨ o.n1 = 1 ∨ o.n1 = 2 ∨ o.n1 = 3 ∨ o.n1 = 4 ∨ o.n1 = 5 ∨ o.n1 = 6 ∨
      o.n1 = 7 ∨ o.n1 = 8 ∨ o.n1 = 9 ∨ o.n1 = 10 ∨ o.n1 = 11 ∨ o.n1 = 12 ∨ o.n1 = 13 ∨
      o.n1 = 14 ∨ o.n1 = 15 := by omega
  rcases hcase with e|e|e|e|e|e|e|e|e|e|e|e|e|e|e|e
  · by_cases f0 : o.n4 = 0
    · rw [decode_00E0 r c e f0] at h
      simp at h
      subst h
      exact clear_screen_dims c
    · by_cases f14 : o.n4 = 14
      · rw [decode_00EE r c e f14] at h
        exact return_from_subroutine_dims h
      · rw [decode_0_illegal r c e f0 f14] at h
        simp at h
  · rw [decode_1NNN r c e] at h
    exact jump_unconditional_dims h
  · rw [decode_2NNN r c e] at h
    exact call_subroutine_dims h
  · rw [decode_3XNN r c e] at h
    exact skip_if_equal_dims h
  · rw [decode_4XNN r c e] at h
    exact skip_if_not_equal_dims h
  · rw [decode_5XY0 r c e] at h
    exact skip_equal_registers_dims h
  · rw [decode_6XNN r c e] at h
    exact load_constant_dims h
  · rw [decode_7XNN r c e] at h
    exact add_constant_dims h
  · have hsub : o.n4 = 0 ∨ o.n4 = 1 ∨ o.n4 = 2 ∨ o.n4 = 3 ∨ o.n4 = 4 ∨ o.n4 = 5 ∨ o.n4 = 6 ∨
        o.n4 = 7 ∨ o.n4 = 14 ∨ (o.n4 ≠ 0 ∧ o.n4 ≠ 1 ∧ o.n4 ≠ 2 ∧ o.n4 ≠ 3 ∧ o.n4 ≠ 4 ∧
        o.n4 ≠ 5 ∧ o.n4 ≠ 6 ∧ o.n4 ≠ 7 ∧ o.n4 ≠ 14) := by omega
    rcases hsub with f|f|f|f|f|f|f|f|f|⟨fa, fb, fc, fd, fe, ff, fg, fh, fi⟩
    · rw [decode_8XY0 r c e f] at h
      exact set_vx_from_vy_dims h
    · rw [decode_8XY1 r c e f] at h
      exact vx_or_vy_dims h
    · rw [decode_8XY2 r c e f] at h
      exact vx_and_vy_dims h
    · rw [decode_8XY3 r c e f] at h
      exact vx_xor_vy_dims h
    · rw [decode_8XY4 r c e f] at h
      exact add_vx_vy_dims h
    · rw [decode_8XY5 r c e f] at h
      exact subtract_vx_vy_dims h
    · rw [decode_8XY6 r c e f] at h
      exact shift_right_vx_dims h
    · rw [decode_8XY7 r c e f] at h
      exact subtract_vy_vx_dims h
    · rw [decode_8XYE r c e f] at h
      exact shift_left_vx_dims h
    · rw [decode_8_illegal r c e fa fb fc fd fe ff fg fh fi] at h
      simp at h
  · rw [decode_9XY0 r c e] at h
    exact skip_vx_not_equal_vy_dims h
  · rw [decode_ANNN r c e] at h
    simp at h
    subst h
    exact set_address_register_dims c o.opcode
  · rw [decode_BNNN r c e] at h
    exact jump_addr_v0_dims h
  · rw [decode_CXNN r c e] at h
    exact set_vx_rand_dims h
  · rw [decode_DXYN r c e] at h
    exact draw_sprite_dims h
  · have hsub : o.n3 = 9 ∨ o.n3 = 10 ∨ (o.n3 ≠ 9 ∧ o.n3 ≠ 10) := by omega
    rcases hsub with f|f|⟨fa, fb⟩
    · rw [decode_EX9E r c e f] at h
      exact skip_on_keypress_dims h
    · rw [decode_EXA1 r c e f] at h
      exact skip_not_keypress_dims h
    · rw [decode_E_illegal r c e fa fb] at h
      simp at h
  · have hsub : o.n3 = 0 ∨ o.n3 = 1 ∨ o.n3 = 2 ∨ o.n3 = 3 ∨ o.n3 = 5 ∨ o.n3 = 6 ∨
        (o.n3 ≠ 0 ∧ o.n3 ≠ 1 ∧ o.n3 ≠ 2 ∧ o.n3 ≠ 3 ∧ o.n3 ≠ 5 ∧ o.n3 ≠ 6) := by omega
    rcases hsub with f|f|f|f|f|f|⟨fa, fb, fc, fd, fe, ff⟩
    · have hsub4 : o.n4 = 7 ∨ o.n4 = 10 ∨ (o.n4 ≠ 7 ∧ o.n4 ≠ 10) := by omega
      rcases hsub4 with g|g|⟨ga, gb⟩
      · rw [decode_FX07 r c e f g] at h
        exact get_delay_timer_dims h
      · rw [decode_FX0A r c e f g] at h
        exact wait_for_key_dims h
      · rw [decode_F0_illegal r c e f ga gb] at h
        simp at h
    · have hsub4 : o.n4 = 5 ∨ o.n4 = 8 ∨ o.n4 = 14 ∨ (o.n4 ≠ 5 ∧ o.n4 ≠ 8 ∧ o.n4 ≠ 14) := by
        omega
      rcases hsub4 with g|g|g|⟨ga, gb, gc⟩
      · rw [decode_FX15 r c e f g] at h
        exact set_delay_timer_dims h
      · rw [decode_FX18 r c e f g] at h
        exact set_sound_timer_dims h
      · rw [decode_FX1E r c e f g] at h
        exact add_vx_to_address_register_dims h
      · rw [decode_F1_illegal r c e f ga gb gc] at h
        simp at h
    · rw [decode_FX29 r c e f] at h
      exact get_font_sprite_dims h
    · rw [decode_FX33 r c e f] at h
      exact get_binary_coded_decimal_dims h
    · rw [decode_FX55 r c e f] at h
      exact register_dump_dims h
    · rw [decode_FX65 r c e f] at h
      exact register_load_dims h
    · rw [decode_F_illegal r c e fa fb fc fd fe ff] at h
      simp at h

theorem tick_dims {c c' : Chip} {r : Nat} (h : c.tick r = Except.ok c') : c'.dims = c.dims := by
  unfold Chip.tick at h
  simp only [] at h
  rcases hg : (Chip.get_next_opcode
      { c with delay_timer := c.delay_timer - 1, sound_timer := c.sound_timer - 1 }) with _ | o
  · rw [hg] at h
    simp at h
  · rw [hg] at h
    have := decode_execute_dims h
    simpa [Chip.dims] using this

theorem load_rom_dims (c : Chip) (rom : List Nat) : (c.load_rom rom).1.dims = c.dims := by
  unfold Chip.load_rom
  simp only []
  split_ifs <;> simp [Chip.dims]

theorem update_keys_dims (c : Chip) (ks : List Bool) : (c.update_keys ks).dims = c.dims := by
  simp [Chip.update_keys, Chip.dims]

theorem applyMutation_dims {m : Mutation} {c c' : Chip}
    (h : applyMutation m c = Except.ok c') : c'.dims = c.dims := by
  cases m with
  | tick r =>
    exact tick_dims h
  | update_keys ks =>
    unfold applyMutation at h
    simp at h
    subst h
    exact update_keys_dims c ks
  | load_rom rom =>
    unfold applyMutation at h
    simp at h
    subst h
    exact load_rom_dims c rom

theorem mutations_foldl_error (ms : List Mutation) (e : Fault) :
    ms.foldl (fun acc m => acc.bind (applyMutation m)) (Except.error e) = Except.error e := by
  induction ms with
  | nil => rfl
  | cons m rest ih => simpa [List.foldl, Except.bind] using ih

theorem applyMutations_dims :
    ∀ (ms : List Mutation) (c c' : Chip), applyMutations ms c = Except.ok c' →
      c'.dims = c.dims := by
  intro ms
  induction ms with
  | nil =>
    intro c c' h
    unfold applyMutations at h
    simp at h
    subst h
    rfl
  | cons m rest ih =>
    intro c c' h
    unfold applyMutations at h
    simp only [List.foldl] at h
    rcases ha : applyMutation m c with e | c1
    · rw [show (Except.ok c : Except Fault Chip).bind (applyMutation m) = Except.error e by
        simpa [Except.bind] using ha] at h
      rw [mutations_foldl_error] at h
      simp at h
    · rw [show (Except.ok c : Except Fault Chip).bind (applyMutation m) = Except.ok c1 by
        simpa [Except.bind] using ha] at h
      have h1 : applyMutations rest c1 = Except.ok c' := h
      have := ih c1 c' h1
      rw [this]
      exact applyMutation_dims ha

theorem new_dims (w h : Nat) : (Chip.new w h).dims = (w, h) := rfl

theorem return_from_subroutine_ne (c : Chip) :
    Opcode.return_from_subroutine c ≠ Except.error Fault.invalidRegister := by
  unfold Opcode.return_from_subroutine
  rcases hp : c.stack.pop with ⟨s', r⟩
  cases r <;> simp

theorem jump_unconditional_ne (c : Chip) (a : Nat) :
    Opcode.jump_unconditional c a ≠ Except.error Fault.invalidRegister := by
  unfold Opcode.jump_unconditional
  split_ifs <;> simp

theorem call_subroutine_ne (c : Chip) (a : Nat) :
    Opcode.call_subroutine c a ≠ Except.error Fault.invalidRegister := by
  unfold Opcode.call_subroutine
  split_ifs
  · simp
  · rcases hp : c.stack.push c.program_counter with ⟨s', r⟩
    cases r <;> simp

theorem skip_if_equal_ne {c : Chip} {vx : Nat} (v : Nat) (hv : vx < c.registers.length) :
    Opcode.skip_if_equal c vx v ≠ Except.error Fault.invalidRegister := by
  unfold Opcode.skip_if_equal
  rw [if_neg (by omega : ¬ c.registers.length ≤ vx)]
  split_ifs <;> simp

theorem skip_if_not_equal_ne {c : Chip} {vx : Nat} (v : Nat) (hv : vx < c.registers.length) :
    Opcode.skip_if_not_equal c vx v ≠ Except.error Fault.invalidRegister := by
  unfold Opcode.skip_if_not_equal
  rw [if_neg (by omega : ¬ c.registers.length ≤ vx)]
  split_ifs <;> simp

theorem skip_equal_registers_ne {c : Chip} {vx vy : Nat} (hx : vx < c.registers.length)
    (hy : vy < c.registers.length) :
    Opcode.skip_equal_registers c vx vy ≠ Except.error Fault.invalidRegister := by
  unfold Opcode.skip_equal_registers
  rw [if_neg (by omega : ¬ (c.registers.length ≤ vx ∨ c.registers.length ≤ vy))]
  split_ifs <;> simp

theorem load_constant_ne {c : Chip} {vx : Nat} (v : Nat) (hv : vx < c.registers.length) :
    Opcode.load_constant c vx v ≠ Except.error Fault.invalidRegister := by
  unfold Opcode.load_constant
  rw [if_neg (by omega : ¬ c.registers.length ≤ vx)]
  simp

theorem add_constant_ne {c : Chip} {vx : Nat} (v : Nat)
    (hv : Opcode.valid_registers [vx] c = true) :
    Opcode.add_constant c vx v ≠ Except.error Fault.invalidRegister := by
  unfold Opcode.add_constant
  rw [if_pos hv]
  simp

theorem set_vx_from_vy_ne {c : Chip} {vx vy : Nat}
    (hv : Opcode.valid_registers [vx, vy] c = true) :
    Opcode.set_vx_from_vy c vx vy ≠ Except.error Fault.invalidRegister := by
  unfold Opcode.set_vx_from_vy
  rw [if_pos hv]
  simp

theorem vx_or_vy_ne {c : Chip} {vx vy : Nat} (hv : Opcode.valid_registers [vx, vy] c = true) :
    Opcode.vx_or_vy c vx vy ≠ Except.error Fault.invalidRegister := by
  unfold Opcode.vx_or_vy
  rw [if_pos hv]
  simp

theorem vx_and_vy_ne {c : Chip} {vx vy : Nat} (hv : Opcode.valid_registers [vx, vy] c = true) :
    Opcode.vx_and_vy c vx vy ≠ Except.error Fault.invalidRegister := by
  unfold Opcode.vx_and_vy
  rw [if_pos hv]
  simp

theorem vx_xor_vy_ne {c : Chip} {vx vy : Nat} (hv : Opcode.valid_registers [vx, vy] c = true) :
    Opcode.vx_xor_vy c vx vy ≠ Except.error Fault.invalidRegister := by
  unfold Opcode.vx_xor_vy
  rw [if_pos hv]
  simp

theorem add_vx_vy_ne {c : Chip} {vx vy : Nat} (hv : Opcode.valid_registers [vx, vy] c = true) :
    Opcode.add_vx_vy c vx vy ≠ Except.error Fault.invalidRegister := by
  unfold Opcode.add_vx_vy
  rw [if_pos hv]
  simp

theorem subtract_vx_vy_ne {c : Chip} {vx vy : Nat}
    (hv : Opcode.valid_registers [vx, vy] c = true) :
    Opcode.subtract_vx_vy c vx vy ≠ Except.error Fault.invalidRegister := by
  unfold Opcode.subtract_vx_vy
  rw [if_pos hv]
  simp

theorem shift_right_vx_ne {c : Chip} {vx : Nat} (hv : Opcode.valid_registers [vx] c = true) :
    Opcode.shift_right_vx c vx ≠ Except.error Fault.invalidRegister := by
  unfold Opcode.shift_right_vx
  rw [if_pos hv]
  simp

theorem subtract_vy_vx_ne {c : Chip} {vx vy : Nat}
    (hv : Opcode.valid_registers [vx, vy] c = true) :
    Opcode.subtract_vy_vx c vx vy ≠ Except.error Fault.invalidRegister := by
  unfold Opcode.subtract_vy_vx
  rw [if_pos hv]
  simp

theorem shift_left_vx_ne {c : Chip} {vx : Nat} (hv : Opcode.valid_registers [vx] c = true) :
    Opcode.shift_left_vx c vx ≠ Except.error Fault.invalidRegister := by
  unfold Opcode.shift_left_vx
  rw [if_pos hv]
  simp

theorem skip_vx_not_equal_vy_ne {c : Chip} {vx vy : Nat}
    (hv : Opcode.valid_registers [vx, vy] c = true) :
    Opcode.skip_vx_not_equal_vy c vx vy ≠ Except.error Fault.invalidRegister := by
  unfold Opcode.skip_vx_not_equal_vy
  rw [if_pos hv]
  split_ifs <;> simp

theorem jump_addr_v0_ne (c : Chip) (a : Nat) :
    Opcode.jump_addr_v0 c a ≠ Except.error Fault.invalidRegister := by
  unfold Opcode.jump_addr_v0
  split_ifs <;> simp

theorem set_vx_rand_ne {c : Chip} {vx : Nat} (k r : Nat)
    (hv : Opcode.valid_registers [vx] c = true) :
    Opcode.set_vx_rand c vx k r ≠ Except.error Fault.invalidRegister := by
  unfold Opcode.set_vx_rand
  rw [if_pos hv]
  simp

theorem drawRows_ne :
    ∀ (n : Nat) (c : Chip) (vx vy row : Nat),
      Opcode.drawRows c vx vy row n ≠ Except.error Fault.invalidRegister := by
  intro n
  induction n with
  | zero =>
    intro c vx vy row
    rw [Opcode.drawRows]
    simp
  | succ m ih =>
    intro c vx vy row
    rw [Opcode.drawRows]
    simp only []
    split_ifs
    · simp
    · exact ih _ vx vy (row + 1)
    · simp
    · simp

theorem draw_sprite_ne {c : Chip} {vx vy : Nat} (ht : Nat)
    (hv : Opcode.valid_registers [vx, vy] c = true) :
    Opcode.draw_sprite c vx vy ht ≠ Except.error Fault.invalidRegister := by
  unfold Opcode.draw_sprite
  rw [if_pos hv]
  rcases hd : Opcode.drawRows { c with registers := c.registers.set 15 0 } vx vy 0 ht with e | c2
  · have := drawRows_ne ht { c with registers := c.registers.set 15 0 } vx vy 0
    rw [hd] at this
    simpa using this
  · simp

theorem skip_on_keypress_ne {c : Chip} {vx : Nat} (hv : Opcode.valid_registers [vx] c = true) :
    Opcode.skip_on_keypress c vx ≠ Except.error Fault.invalidRegister := by
  unfold Opcode.skip_on_keypress
  rw [if_pos hv]
  split_ifs <;> simp

theorem skip_not_keypress_ne {c : Chip} {vx : Nat} (hv : Opcode.valid_registers [vx] c = true) :
    Opcode.skip_not_keypress c vx ≠ Except.error Fault.invalidRegister := by
  unfold Opcode.skip_not_keypress
  rw [if_pos hv]
  split_ifs <;> simp

theorem get_delay_timer_ne (c : Chip) (vx : Nat) :
    Opcode.get_delay_timer c vx ≠ Except.error Fault.invalidRegister := by
  unfold Opcode.get_delay_timer
  split_ifs <;> simp

theorem wait_for_key_ne {c : Chip} {vx : Nat} (hv : Opcode.valid_registers [vx] c = true) :
    Opcode.wait_for_key c vx ≠ Except.error Fault.invalidRegister := by
  unfold Opcode.wait_for_key
  rw [if_pos hv]
  cases c.get_pressed_key <;> simp

theorem set_delay_timer_ne {c : Chip} {vx : Nat} (hv : Opcode.valid_registers [vx] c = true) :
    Opcode.set_delay_timer c vx ≠ Except.error Fault.invalidRegister := by
  unfold Opcode.set_delay_timer
  rw [if_pos hv]
  simp

theorem set_sound_timer_ne {c : Chip} {vx : Nat} (hv : Opcode.valid_registers [vx] c = true) :
    Opcode.set_sound_timer c vx ≠ Except.error Fault.invalidRegister := by
  unfold Opcode.set_sound_timer
  rw [if_pos hv]
  simp

theorem add_vx_to_address_register_ne {c : Chip} {vx : Nat}
    (hv : Opcode.valid_registers [vx] c = true) :
    Opcode.add_vx_to_address_register c vx ≠ Except.error Fault.invalidRegister := by
  unfold Opcode.add_vx_to_address_register
  rw [if_pos hv]
  simp only []
  split_ifs <;> simp

theorem get_font_sprite_ne {c : Chip} {vx : Nat} (hv : Opcode.valid_registers [vx] c = true) :
    Opcode.get_font_sprite c vx ≠ Except.error Fault.invalidRegister := by
  unfold Opcode.get_font_sprite
  rw [if_pos hv]
  simp

theorem get_binary_coded_decimal_ne {c : Chip} {vx : Nat}
    (hv : Opcode.valid_registers [vx] c = true) :
    Opcode.get_binary_coded_decimal c vx ≠ Except.error Fault.invalidRegister := by
  unfold Opcode.get_binary_coded_decimal
  rw [if_pos hv]
  simp only []
  split_ifs <;> simp

theorem dumpLoop_ne :
    ∀ (n : Nat) (c : Chip) (i : Nat),
      Opcode.dumpLoop c i n ≠ Except.error Fault.invalidRegister := by
  intro n
  induction n with
  | zero =>
    intro c i
    rw [Opcode.dumpLoop]
    simp
  | succ m ih =>
    intro c i
    rw [Opcode.dumpLoop]
    split_ifs
    · exact ih _ (i + 1)
    · simp

theorem register_dump_ne {c : Chip} {vx : Nat} (hv : Opcode.valid_registers [vx] c = true) :
    Opcode.register_dump c vx ≠ Except.error Fault.invalidRegister := by
  unfold Opcode.register_dump
  rw [if_pos hv]
  rcases hd : Opcode.dumpLoop c 0 (vx + 1) with e | c2
  · have := dumpLoop_ne (vx + 1) c 0
    rw [hd] at this
    simpa using this
  · simp

theorem loadLoop_ne :
    ∀ (n : Nat) (c : Chip) (i : Nat),
      Opcode.loadLoop c i n ≠ Except.error Fault.invalidRegister := by
  intro n
  induction n with
  | zero =>
    intro c i
    rw [Opcode.loadLoop]
    simp
  | succ m ih =>
    intro c i
    rw [Opcode.loadLoop]
    split_ifs
    · exact ih _ (i + 1)
    · simp

theorem register_load_ne {c : Chip} {vx : Nat} (hv : Opcode.valid_registers [vx] c = true) :
    Opcode.register_load c vx ≠ Except.error Fault.invalidRegister := by
  unfold Opcode.register_load
  rw [if_pos hv]
  rcases hd : Opcode.loadLoop c 0 (vx + 1) with e | c2
  · have := loadLoop_ne (vx + 1) c 0
    rw [hd] at this
    simpa using this
  · simp

/-- C10: for every 16-bit opcode dispatched through decode_execute against a
machine whose register file has its invariant length 16, every register index
handed to an instruction routine is a 4-bit nibble and hence below 16, so the
invalid-register validation failure is unreachable: decode_execute never
returns the invalid-register fault. -/
theorem decode_execute_never_invalid_register (o : Opcode) (r : Nat) (c : Chip)
    (hlen : c.registers.length = 16) :
    o.decode_execute r c ≠ Except.error Fault.invalidRegister := by
  have h16 := Opcode.n1_lt_16 o
  have hx : o.n2 < c.registers.length := by rw [hlen]; exact Opcode.n2_lt_16 o
  have hy : o.n3 < c.registers.length := by rw [hlen]; exact Opcode.n3_lt_16 o
  have hv1 : Opcode.valid_registers [o.n2] c = true := valid_registers_one c o.n2 hx
  have hv1y : Opcode.valid_registers [o.n3] c = true := valid_registers_one c o.n3 hy
  have hv2 : Opcode.valid_registers [o.n2, o.n3] c = true := valid_registers_two c o.n2 o.n3 hx hy
  have hcase : o.n1 = 0 ∨ o.n1 = 1 ∨ o.n1 = 2 ∨ o.n1 = 3 ∨ o.n1 = 4 ∨ o.n1 = 5 ∨ o.n1 = 6 ∨
      o.n1 = 7 ∨ o.n1 = 8 ∨ o.n1 = 9 ∨ o.n1 = 10 ∨ o.n1 = 11 ∨ o.n1 = 12 ∨ o.n1 = 13 ∨
      o.n1 = 14 ∨ o.n1 = 15 := by omega
  rcases hcase with e|e|e|e|e|e|e|e|e|e|e|e|e|e|e|e
  · by_cases f0 : o.n4 = 0
    · rw [decode_00E0 r c e f0]
      simp
    · by_cases f14 : o.n4 = 14
      · rw [decode_00EE r c e f14]
        exact return_from_subroutine_ne c
      · rw [decode_0_illegal r c e f0 f14]
        simp
  · rw [decode_1NNN r c e]
    exact jump_unconditional_ne c _
  · rw [decode_2NNN r c e]
    exact call_subroutine_ne c _
  · rw [decode_3XNN r c e]
    exact skip_if_equal_ne o.constant hx
  · rw [decode_4XNN r c e]
    exact skip_if_not_equal_ne o.constant hx
  · rw [decode_5XY0 r c e]
    exact skip_equal_registers_ne hx hy
  · rw [decode_6XNN r c e]
    exact load_constant_ne o.constant hx
  · rw [decode_7XNN r c e]
    exact add_constant_ne o.constant hv1
  · have hsub : o.n4 = 0 ∨ o.n4 = 1 ∨ o.n4 = 2 ∨ o.n4 = 3 ∨ o.n4 = 4 ∨ o.n4 = 5 ∨ o.n4 = 6 ∨
        o.n4 = 7 ∨ o.n4 = 14 ∨ (o.n4 ≠ 0 ∧ o.n4 ≠ 1 ∧ o.n4 ≠ 2 ∧ o.n4 ≠ 3 ∧ o.n4 ≠ 4 ∧
        o.n4 ≠ 5 ∧ o.n4 ≠ 6 ∧ o.n4 ≠ 7 ∧ o.n4 ≠ 14) := by omega
    rcases hsub with f|f|f|f|f|f|f|f|f|⟨fa, fb, fc, fd, fe, ff, fg, fh, fi⟩
    · rw [decode_8XY0 r c e f]
      exact set_vx_from_vy_ne hv2
    · rw [decode_8XY1 r c e f]
      exact vx_or_vy_ne hv2
    · rw [decode_8XY2 r c e f]
      exact vx_and_vy_ne hv2
    · rw [decode_8XY3 r c e f]
      exact vx_xor_vy_ne hv2
    · rw [decode_8XY4 r c e f]
      exact add_vx_vy_ne hv2
    · rw [decode_8XY5 r c e f]
      exact subtract_vx_vy_ne hv2
    · rw [decode_8XY6 r c e f]
      exact shift_right_vx_ne hv1
    · rw [decode_8XY7 r c e f]
      exact subtract_vy_vx_ne hv2
    · rw [decode_8XYE r c e f]
      exact shift_left_vx_ne hv1y
    · rw [decode_8_illegal r c e fa fb fc fd fe ff fg fh fi]
      simp
  · rw [decode_9XY0 r c e]
    exact skip_vx_not_equal_vy_ne hv2
  · rw [decode_ANNN r c e]
    simp
  · rw [decode_BNNN r c e]
    exact jump_addr_v0_ne c o.opcode
  · rw [decode_CXNN r c e]
    exact set_vx_rand_ne o.constant r hv1
  · rw [decode_DXYN r c e]
    exact draw_sprite_ne 13 hv2
  · have hsub : o.n3 = 9 ∨ o.n3 = 10 ∨ (o.n3 ≠ 9 ∧ o.n3 ≠ 10) := by omega
    rcases hsub with f|f|⟨fa, fb⟩
    · rw [decode_EX9E r c e f]
      exact skip_on_keypress_ne hv1
    · rw [decode_EXA1 r c e f]
      exact skip_not_keypress_ne hv1
    · rw [decode_E_illegal r c e fa fb]
      simp
  · have hsub : o.n3 = 0 ∨ o.n3 = 1 ∨ o.n3 = 2 ∨ o.n3 = 3 ∨ o.n3 = 5 ∨ o.n3 = 6 ∨
        (o.n3 ≠ 0 ∧ o.n3 ≠ 1 ∧ o.n3 ≠ 2 ∧ o.n3 ≠ 3 ∧ o.n3 ≠ 5 ∧ o.n3 ≠ 6) := by omega
    rcases hsub with f|f|f|f|f|f|⟨fa, fb, fc, fd, fe, ff⟩
    · have hsub4 : o.n4 = 7 ∨ o.n4 = 10 ∨ (o.n4 ≠ 7 ∧ o.n4 ≠ 10) := by omega
      rcases hsub4 with g|g|⟨ga, gb⟩
      · rw [decode_FX07 r c e f g]
        exact get_delay_timer_ne c o.n2
      · rw [decode_FX0A r c e f g]
        exact wait_for_key_ne hv1
      · rw [decode_F0_illegal r c e f ga gb]
        simp
    · have hsub4 : o.n4 = 5 ∨ o.n4 = 8 ∨ o.n4 = 14 ∨ (o.n4 ≠ 5 ∧ o.n4 ≠ 8 ∧ o.n4 ≠ 14) := by
        omega
      rcases hsub4 with g|g|g|⟨ga, gb, gc⟩
      · rw [decode_FX15 r c e f g]
        exact set_delay_timer_ne hv1
      · rw [decode_FX18 r c e f g]
        exact set_sound_timer_ne hv1
      · rw [decode_FX1E r c e f g]
        exact add_vx_to_address_register_ne hv1
      · rw [decode_F1_illegal r c e f ga gb gc]
        simp
    · rw [decode_FX29 r c e f]
      exact get_font_sprite_ne hv1
    · rw [decode_FX33 r c e f]
      exact get_binary_coded_decimal_ne hv1
    · rw [decode_FX55 r c e f]
      exact register_dump_ne hv1
    · rw [decode_FX65 r c e f]
      exact register_load_ne hv1
    · rw [decode_F_illegal r c e fa fb fc fd fe ff]
      simp

/-- Witness for C10: the invalid-register fault is not produced when the draw
opcode 0xD001 is dispatched against a freshly constructed default machine. -/
theorem decode_execute_never_invalid_register_witness :
    Opcode.decode_execute { opcode := 0xD001 } 0 Chip.mkDefault ≠
      Except.error Fault.invalidRegister :=
  decode_execute_never_invalid_register { opcode := 0xD001 } 0 Chip.mkDefault rfl

/-- C9: after any sequence of mutations (ticks executing opcodes, key updates,
ROM loads) applied to a freshly constructed machine with dimensions (w, h),
`reset()` rebuilds exactly `Chip::new(w, h)` — memory with re-seeded fonts,
registers, address register, program counter 0x200, stack, keys, screen
buffer, and both timers all equal the fresh values, since reset replaces the
whole state with a new construction over the preserved dimensions. -/
theorem reset_restores_fresh_state (w h : Nat) (ms : List Mutation) (c' : Chip)
    (hrun : applyMutations ms (Chip.new w h) = Except.ok c') : c'.reset = Chip.new w h := by
  have hd := applyMutations_dims ms (Chip.new w h) c' hrun
  rw [new_dims] at hd
  have hw : c'.screen_width = w := congrArg Prod.fst hd
  have hh : c'.screen_height = h := congrArg Prod.snd hd
  unfold Chip.reset
  rw [hw, hh]

/-- Witness for C9: a default machine whose key-state array is mutated (all 16
keys pressed) resets to the fresh state. -/
theorem reset_restores_fresh_state_witness :
    (okOr (applyMutations [Mutation.update_keys (List.replicate 16 true)] (Chip.new 64 32))
        (Chip.new 64 32)).reset =
      Chip.new 64 32 :=
  reset_restores_fresh_state 64 32 [Mutation.update_keys (List.replicate 16 true)] _ rfl

theorem drawRows_step (c : Chip) (vx vy row n : Nat)
    (h1 : (c.registers.getD vy 0 + row) % 256 * c.screen_width + c.registers.getD vx 0 <
      c.screen_buffer.length)
    (h2 : c.address + row < c.memory.length)
    (h3 : Opcode.pixel_collision
      (c.screen_buffer.getD ((c.registers.getD vy 0 + row) % 256 * c.screen_width +
        c.registers.getD vx 0) 0) (c.memory.getD (c.address + row) 0) = false) :
    Opcode.drawRows c vx vy row (n + 1) =
      Opcode.drawRows { c with screen_buffer := (c.screen_buffer.set
        ((c.registers.getD vy 0 + row) % 256 * c.screen_width + c.registers.getD vx 0)
        (c.screen_buffer.getD ((c.registers.getD vy 0 + row) % 256 * c.screen_width +
          c.registers.getD vx 0) 0 ^^^ c.memory.getD (c.address + row) 0)) }
        vx vy (row + 1) n := by
  rw [Opcode.drawRows]
  simp only []
  rw [if_pos h1, if_pos h2, if_neg (by rw [h3]; simp)]

theorem drawRows_oob (c : Chip) (vx vy row n : Nat)
    (h1 : ¬ ((c.registers.getD vy 0 + row) % 256 * c.screen_width + c.registers.getD vx 0 <
      c.screen_buffer.length)) :
    Opcode.drawRows c vx vy row (n + 1) = Except.error Fault.outOfBounds := by
  rw [Opcode.drawRows]
  simp only []
  rw [if_neg h1]

/-- C1: executing DXYN does not draw N = n4 rows: the decode arm passes
`n1 & 0xFF` = 13 as the height, so opcode 0xD001 (N = 1) on a fresh 8 x 2
machine — where the single claimed row at (V0, V1) = (0, 0) fits the 2-byte
screen buffer — attempts further rows, runs the byte index out of bounds at
row 1, and panics instead of XORing one row, setting VF and advancing the
program counter by 2. -/
theorem dxyn_height_from_n1_out_of_bounds :
    Opcode.n4 { opcode := 0xD001 } = 1 ∧
    Opcode.n1 { opcode := 0xD001 } &&& 0xFF = 13 ∧
    Opcode.decode_execute { opcode := 0xD001 } 0 chipSmall =
      Except.error Fault.outOfBounds := by
  refine ⟨rfl, rfl, ?_⟩
  rw [decode_DXYN (o := { opcode := 0xD001 }) 0 chipSmall rfl]
  show Opcode.draw_sprite chipSmall 0 0 13 = Except.error Fault.outOfBounds
  unfold Opcode.draw_sprite
  rw [if_pos (by decide : Opcode.valid_registers [0, 0] chipSmall = true)]
  have hm : ({ chipSmall with registers := chipSmall.registers.set 15 0 } : Chip).memory.length =
      0xFFF := by
    show (writeBytes (List.replicate 0xFFF 0) 0 fontData).length = 0xFFF
    rw [writeBytes_length, List.length_replicate]
  have hdraw : Opcode.drawRows { chipSmall with registers := chipSmall.registers.set 15 0 }
      0 0 0 13 = Except.error Fault.outOfBounds := by
    rw [show (13 : Nat) = 12 + 1 from rfl]
    rw [drawRows_step _ 0 0 0 12 (by decide) (by rw [hm]; decide) (by decide)]
    rw [show (12 : Nat) = 11 + 1 from rfl]
    apply drawRows_oob
    decide
  rw [hdraw]

/-- C2 counterexample: on a fresh default machine (program counter 0x200,
V0 = 0), executing 0xB100 leaves the program counter at 0x300 = 0x200 + 0x100,
not at the claimed absolute NNN + V0 = 0x100. -/
theorem bnnn_absolute_jump_counterexample :
    (Opcode.decode_execute { opcode := 0xB100 } 0 Chip.mkDefault).map
        (fun c => c.program_counter) = Except.ok 0x300 ∧
    (0x300 : Nat) ≠ 0x100 + Chip.mkDefault.registers.getD 0 0 :=
  ⟨rfl, by decide⟩

/-- C2 amended: executing BNNN adds NNN + V0 to the current program counter
(16-bit wrap), a relative adjustment rather than an absolute assignment, with
no further advance. -/
theorem bnnn_adds_to_pc (o : Opcode) (r : Nat) (c : Chip) (h1 : o.n1 = 11)
    (hreg : 0 < c.registers.length) :
    o.decode_execute r c = Except.ok { c with program_counter :=
      (c.program_counter + (o.opcode &&& 0x0FFF) + c.registers.getD 0 0) % 65536 } := by
  rw [decode_BNNN r c h1]
  unfold Opcode.jump_addr_v0
  rw [if_pos hreg]

/-- Witness for the amended C2: 0xB100 on the fresh default machine. -/
theorem bnnn_adds_to_pc_witness :
    Opcode.decode_execute { opcode := 0xB100 } 0 Chip.mkDefault =
      Except.ok { Chip.mkDefault with program_counter :=
        (Chip.mkDefault.program_counter + (0xB100 &&& 0x0FFF) +
          Chip.mkDefault.registers.getD 0 0) % 65536 } :=
  bnnn_adds_to_pc { opcode := 0xB100 } 0 Chip.mkDefault rfl (by decide)

/-- C3: executing 6X01 then 7X01 on a fresh default machine leaves V0 = 3, not
(1 + 1) mod 256 = 2: `add_constant` performs
`registers[vx] += registers[vx].wrapping_add(value)`, adding the wrapped sum
back onto Vx instead of assigning it. -/
theorem add_constant_adds_vx_twice :
    (runOps [(0x6001, 0), (0x7001, 0)] Chip.mkDefault).map
        (fun c => c.registers.getD 0 0) = Except.ok 3 ∧
    (3 : Nat) ≠ (1 + 1) % 256 :=
  ⟨rfl, by decide⟩

/-- C4: executing 00E0 on a fresh default machine advances the program counter
by 2 but empties the screen buffer to length 0 (`Vec::clear`), instead of
leaving width * height / 8 = 256 zeroed bytes for the renderer. -/
theorem clear_screen_empties_buffer :
    (Opcode.decode_execute { opcode := 0x00E0 } 0 Chip.mkDefault).map
        (fun c => (c.screen_buffer.length, c.program_counter)) = Except.ok (0, 0x202) ∧
    (0 : Nat) ≠ 64 * 32 / 8 :=
  ⟨rfl, by decide⟩

/-- C5: with V0 = 0x80 and V1 = 0x01, executing 0x801E shifts V1 (the register
named by the third nibble) to 2 and sets VF to V1's old msb 0, while V0 keeps
0x80 — the 8XYE decode arm passes n3, so the claimed effect on Vx (V0 := 0x00,
VF := 1) does not happen. -/
theorem shift_left_targets_n3 :
    (runOps [(0x6080, 0), (0x6101, 0), (0x801E, 0)] Chip.mkDefault).map
        (fun c => (c.registers.getD 0 0, c.registers.getD 1 0, c.registers.getD 15 0)) =
      Except.ok (0x80, 2, 0) ∧
    (0x80 : Nat) ≠ (0x80 <<< 1) % 256 ∧
    (0 : Nat) ≠ ((0x80 &&& 0x80) >>> 7) &&& 0x1 :=
  ⟨rfl, by decide, by decide⟩

/-- C6 counterexample: with I = 0xFFF and V0 = 1, executing 0xF01E yields
I = 0x1000 — past the 12-bit address space — yet VF = 0, because the source
judges overflow with `u16::overflowing_add`: the claimed 12-bit criterion would
have set VF = 1. -/
theorem fx1e_twelve_bit_counterexample :
    (runOps [(0xAFFF, 0), (0x6001, 0), (0xF01E, 0)] Chip.mkDefault).map
        (fun c => (c.address, c.registers.getD 15 0)) = Except.ok (0x1000, 0) ∧
    0xFFF < (0x1000 : Nat) ∧
    (0 : Nat) ≠ 1 :=
  ⟨rfl, by decide, by decide⟩

/-- C6 amended: FX1E sets I := (I + Vx) mod 2^16 and VF := 1 exactly when the
sum reaches 2^16 (overflow judged at 16 bits, not 12), then advances the
program counter by 2. -/
theorem fx1e_sixteen_bit_overflow (o : Opcode) (r : Nat) (c : Chip) (h1 : o.n1 = 15)
    (h3 : o.n3 = 1) (h4 : o.n4 = 14) (hlen : c.registers.length = 16) :
    o.decode_execute r c = Except.ok (Chip.increment_program_counter
      { c with address := (c.address + c.registers.getD o.n2 0) % 65536,
               registers := c.registers.set 15
                 (if 65536 ≤ c.address + c.registers.getD o.n2 0 then 1 else 0) } none) := by
  rw [decode_FX1E r c h1 h3 h4]
  unfold Opcode.add_vx_to_address_register
  rw [if_pos (valid_registers_one c o.n2 (by rw [hlen]; exact Opcode.n2_lt_16 o))]
  simp only []
  split_ifs <;> rfl

/-- Witness for the amended C6: 0xF01E on the fresh default machine. -/
theorem fx1e_sixteen_bit_overflow_witness :
    Opcode.decode_execute { opcode := 0xF01E } 0 Chip.mkDefault =
      Except.ok (Chip.increment_program_counter
        { Chip.mkDefault with
            address := (Chip.mkDefault.address +
              Chip.mkDefault.registers.getD (Opcode.n2 { opcode := 0xF01E }) 0) % 65536,
            registers := Chip.mkDefault.registers.set 15
              (if 65536 ≤ Chip.mkDefault.address +
                  Chip.mkDefault.registers.getD (Opcode.n2 { opcode := 0xF01E }) 0
               then 1 else 0) } none) :=
  fx1e_sixteen_bit_overflow { opcode := 0xF01E } 0 Chip.mkDefault rfl rfl rfl (by decide)

/-- C7: for a stack of capacity c — a push below depth c succeeds and raises
the depth by one; the push attempted at depth c errors and leaves the stack
unchanged; a pop on an empty stack errors and leaves it unchanged; and N
pushes (N ≤ c) followed by N pops return the pushed items in reverse order. -/
theorem stack_discipline :
    (∀ (T : Type) (cap : Nat) (s : Stack T) (item : T), s.size = cap → s.head < cap →
        (s.push item).2 = Except.ok () ∧ (s.push item).1.head = s.head + 1) ∧
    (∀ (T : Type) (cap : Nat) (s : Stack T) (item : T), s.size = cap → s.head = cap →
        (s.push item).2 = Except.error () ∧ (s.push item).1 = s) ∧
    (∀ (T : Type) (s : Stack T), s.head = 0 →
        (s.pop).2 = Except.error () ∧ (s.pop).1 = s) ∧
    (∀ (T : Type) (cap : Nat) (items : List T), items.length ≤ cap →
        popN (pushAll (Stack.new T cap) items) items.length = some items.reverse) := by
  refine ⟨?_, ?_, ?_, ?_⟩
  · intro T cap s item hsz hlt
    have hc : s.head < s.size := by omega
    simp [Stack.push, hc]
  · intro T cap s item hsz heq
    have hc : ¬ s.head < s.size := by omega
    simp [Stack.push, hc]
  · intro T s h0
    have hc : ¬ s.head > 0 := by omega
    simp [Stack.pop, hc]
  · intro T cap items hle
    have hp := pushAll_ok items (Stack.new T cap) (by simp [Stack.new])
      (by simp [Stack.new]; omega)
    rw [hp]
    have hq := popN_reverse (T := T) items.length
      { size := (Stack.new T cap).size, head := (Stack.new T cap).head + items.length,
        data := (Stack.new T cap).data ++ items }
      (by simp [Stack.new]) (by simp [Stack.new])
    simpa [Stack.new] using hq

/-- Witness for C7: capacity-bounded pushes, failing push at capacity, failing
pop on empty, and LIFO order, at concrete stacks. -/
theorem stack_discipline_witness :
    (((Stack.new Nat 2).push 5).2 = Except.ok () ∧
      ((Stack.new Nat 2).push 5).1.head = (Stack.new Nat 2).head + 1) ∧
    (((((Stack.new Nat 1).push 7).1).push 8).2 = Except.error () ∧
      ((((Stack.new Nat 1).push 7).1).push 8).1 = ((Stack.new Nat 1).push 7).1) ∧
    (((Stack.new Nat 3).pop).2 = Except.error () ∧ ((Stack.new Nat 3).pop).1 = Stack.new Nat 3) ∧
    popN (pushAll (Stack.new Nat 2) [1, 2]) 2 = some [2, 1] := by
  refine ⟨stack_discipline.1 Nat 2 (Stack.new Nat 2) 5 rfl (by decide),
    stack_discipline.2.1 Nat 1 (((Stack.new Nat 1).push 7).1) 8 (by decide) (by decide),
    stack_discipline.2.2.1 Nat (Stack.new Nat 3) rfl, ?_⟩
  have hq := stack_discipline.2.2.2 Nat 2 [1, 2] (by decide)
  simpa using hq

/-- C8: on a machine with the stock 0xFFF-byte memory, loading a ROM of exactly
0x400 bytes succeeds with every byte copied to memory[0x200..0x600]; loading
0x401 bytes returns the oversized-ROM error, and the bytes have nevertheless
already been written into memory when the error is returned (the size check
runs after the write). -/
theorem load_rom_boundary (c : Chip) (rom : List Nat) (hmem : c.memory.length = 0xFFF) :
    (rom.length = 0x400 →
      (c.load_rom rom).2 = Except.ok () ∧
      ∀ i, i < 0x400 → (c.load_rom rom).1.memory.getD (0x200 + i) 0 = rom.getD i 0) ∧
    (rom.length = 0x401 →
      (c.load_rom rom).2 = Except.error () ∧
      ∀ i, i < 0x401 → (c.load_rom rom).1.memory.getD (0x200 + i) 0 = rom.getD i 0) := by
  constructor
  · intro hl
    have hbr : min rom.length (c.memory.length - 0x200) = rom.length := by omega
    have htake : rom.take (min rom.length (c.memory.length - 0x200)) = rom := by
      rw [hbr]
      exact List.take_length rom
    have hres : c.load_rom rom =
        ({ c with memory := writeBytes c.memory 0x200 rom }, Except.ok ()) := by
      unfold Chip.load_rom
      simp only []
      rw [htake, hbr, if_neg (by omega : ¬ rom.length > 0x400)]
    rw [hres]
    refine ⟨rfl, ?_⟩
    intro i hi
    exact writeBytes_getD rom c.memory 0x200 i (by omega) (by omega)
  · intro hl
    have hbr : min rom.length (c.memory.length - 0x200) = rom.length := by omega
    have htake : rom.take (min rom.length (c.memory.length - 0x200)) = rom := by
      rw [hbr]
      exact List.take_length rom
    have hres : c.load_rom rom =
        ({ c with memory := writeBytes c.memory 0x200 rom }, Except.error ()) := by
      unfold Chip.load_rom
      simp only []
      rw [htake, hbr, if_pos (by omega : rom.length > 0x400)]
    rw [hres]
    refine ⟨rfl, ?_⟩
    intro i hi
    exact writeBytes_getD rom c.memory 0x200 i (by omega) (by omega)

/-- Witness for C8: a 0x400-byte ROM of 7s loads successfully with its first
byte visible at 0x200, and a 0x401-byte ROM errors on the fresh default
machine. -/
theorem load_rom_boundary_witness :
    ((Chip.mkDefault.load_rom (List.replicate 0x400 7)).2 = Except.ok () ∧
      (Chip.mkDefault.load_rom (List.replicate 0x400 7)).1.memory.getD (0x200 + 0) 0 =
        (List.replicate 0x400 7).getD 0 0) ∧
    (Chip.mkDefault.load_rom (List.replicate 0x401 7)).2 = Except.error () := by
  have hmem : Chip.mkDefault.memory.length = 0xFFF := by
    show (writeBytes (List.replicate 0xFFF 0) 0 fontData).length = 0xFFF
    rw [writeBytes_length, List.length_replicate]
  have h400 := (load_rom_boundary Chip.mkDefault (List.replicate 0x400 7) hmem).1
    (List.length_replicate 0x400 7)
  have h401 := (load_rom_boundary Chip.mkDefault (List.replicate 0x401 7) hmem).2
    (List.length_replicate 0x401 7)
  exact ⟨⟨h400.1, h400.2 0 (by decide)⟩, h401.1⟩
